/-
Verification of the core kernel components of a small RISC-V (Sv39)
teaching kernel (rCore-style, directory os5/src): physical-frame
allocator, three-level page table, address-space construction, and the
process lifecycle (fork, exec, exit, waitpid) plus scheduler dispatch.

Every definition below is a shallow embedding of a function or data
structure of the Rust source; the comment above each definition names
the Rust item it embeds.  Machine integers (usize) are modelled as Nat;
Rust panics and failing unwraps are modelled as Option results (none =
panic).  Interior mutability (UPSafeCell) is modelled by explicit state
passing; a dynamically detected double borrow is likewise none.
-/
import Mathlib

set_option maxHeartbeats 1000000

namespace OS5

/-! ## Frame allocator (mm/frame_allocator.rs) -/

/-- Embeds `StackFrameAllocator` (mm/frame_allocator.rs): a stack-style
allocator over the half-open PPN range `[current, end)` plus a LIFO list
of recycled PPNs.  The Rust field `end` is a Lean keyword and is renamed
`end_`.  `recycled` models the Rust `Vec` with the stack top at the list
head (Rust pushes/pops at the Vec tail). -/
structure StackFrameAllocator where
  current : Nat
  end_ : Nat
  recycled : List Nat
deriving DecidableEq, Repr

/-- Embeds `StackFrameAllocator::init`: fix the allocatable range. -/
def StackFrameAllocator.init (l r : Nat) : StackFrameAllocator :=
  { current := l, end_ := r, recycled := [] }

/-- Embeds `StackFrameAllocator::alloc`: pop from `recycled` if possible;
otherwise if `current == end` fail, else hand out `current` and advance.
Returns the allocated PPN (or none) together with the new state. -/
def StackFrameAllocator.alloc (a : StackFrameAllocator) :
    Option Nat × StackFrameAllocator :=
  match a.recycled with
  | p :: rest => (some p, { a with recycled := rest })
  | [] =>
    if a.current = a.end_ then (none, a)
    else (some a.current, { a with current := a.current + 1 })

/-- Embeds `StackFrameAllocator::dealloc`: panic (none) if `ppn ≥ current`
or `ppn` is already recycled; otherwise push `ppn` onto the stack. -/
def StackFrameAllocator.dealloc (a : StackFrameAllocator) (ppn : Nat) :
    Option StackFrameAllocator :=
  if a.current ≤ ppn ∨ ppn ∈ a.recycled then none
  else some { a with recycled := ppn :: a.recycled }

/-- Reachable allocator states: an `init l r` call with a well-formed
range (as performed by `init_frame_allocator`, which passes
`ceil(ekernel) ≤ floor(MEMORY_END)`), followed by any sequence of
successful `alloc` and `dealloc` operations. -/
inductive StackFrameAllocator.Reachable : StackFrameAllocator → Prop
  | init (l r : Nat) (h : l ≤ r) :
      StackFrameAllocator.Reachable (StackFrameAllocator.init l r)
  | alloc (a : StackFrameAllocator) (o : Option Nat) (a' : StackFrameAllocator) :
      StackFrameAllocator.Reachable a → a.alloc = (o, a') →
      StackFrameAllocator.Reachable a'
  | dealloc (a : StackFrameAllocator) (p : Nat) (a' : StackFrameAllocator) :
      StackFrameAllocator.Reachable a → a.dealloc p = some a' →
      StackFrameAllocator.Reachable a'

/-- In every reachable allocator state the cursor never exceeds the limit. -/
theorem StackFrameAllocator.reachable_current_le_end
    (a : StackFrameAllocator) (h : a.Reachable) : a.current ≤ a.end_ := by
  induction h with
  | init l r h => exact h
  | alloc a o a' _ heq ih =>
    unfold StackFrameAllocator.alloc at heq
    split at heq
    · injection heq with h1 h2
      subst h2
      exact ih
    · split at heq
      · injection heq with h1 h2
        subst h2
        exact ih
      · injection heq with h1 h2
        subst h2
        next hce =>
          show a.current + 1 ≤ a.end_
          omega
  | dealloc a p a' _ heq ih =>
    unfold StackFrameAllocator.dealloc at heq
    split at heq
    · exact absurd heq (by simp)
    · injection heq with h2
      subst h2
      exact ih

/-- C6: in any reachable frame-allocator state, `alloc` pops the top of
the recycled stack when it is non-empty (hence `alloc` immediately after
`dealloc p` returns `p`), otherwise returns the cursor and advances it
when `cursor < end`, otherwise fails; `dealloc ppn` panics exactly when
`ppn ≥ cursor` or `ppn` is already recycled, and otherwise pushes `ppn`. -/
theorem StackFrameAllocator.spec
    (a : StackFrameAllocator) (h : a.Reachable) :
    (∀ p rest, a.recycled = p :: rest →
        a.alloc = (some p, { a with recycled := rest })) ∧
    (a.recycled = [] → a.current < a.end_ →
        a.alloc = (some a.current, { a with current := a.current + 1 })) ∧
    (a.recycled = [] → ¬ a.current < a.end_ → a.alloc = (none, a)) ∧
    (∀ p, a.dealloc p = none ↔ (a.current ≤ p ∨ p ∈ a.recycled)) ∧
    (∀ p, p < a.current → p ∉ a.recycled →
        a.dealloc p = some { a with recycled := p :: a.recycled }) ∧
    (∀ p a', a.dealloc p = some a' →
        a'.alloc = (some p, { a' with recycled := a.recycled })) := by
  have hle := a.reachable_current_le_end h
  refine ⟨?_, ?_, ?_, ?_, ?_, ?_⟩
  · intro p rest hrec
    unfold StackFrameAllocator.alloc
    rw [hrec]
  · intro hrec hlt
    unfold StackFrameAllocator.alloc
    rw [hrec]
    have : ¬ a.current = a.end_ := by omega
    simp [this]
  · intro hrec hnlt
    unfold StackFrameAllocator.alloc
    rw [hrec]
    have : a.current = a.end_ := by omega
    simp [this]
  · intro p
    unfold StackFrameAllocator.dealloc
    by_cases hc : a.current ≤ p ∨ p ∈ a.recycled
    · simp [hc]
    · simp [hc]
  · intro p h1 h2
    unfold StackFrameAllocator.dealloc
    have : ¬ (a.current ≤ p ∨ p ∈ a.recycled) := by
      push_neg
      exact ⟨by omega, h2⟩
    simp [this]
  · intro p a' hd
    unfold StackFrameAllocator.dealloc at hd
    by_cases hc : a.current ≤ p ∨ p ∈ a.recycled
    · simp [hc] at hd
    · simp [hc] at hd
      subst hd
      unfold StackFrameAllocator.alloc
      rfl

/-- C6 witness: the state reached by `init 5 10` is reachable and the
specification holds there, applied at concrete inputs. -/
theorem StackFrameAllocator.spec_witness :
    (StackFrameAllocator.init 5 10).recycled = [] ∧
    (StackFrameAllocator.init 5 10).current < (StackFrameAllocator.init 5 10).end_ ∧
    (StackFrameAllocator.init 5 10).alloc =
      (some 5, { StackFrameAllocator.init 5 10 with current := 6 }) := by
  have h := StackFrameAllocator.spec (StackFrameAllocator.init 5 10)
    (StackFrameAllocator.Reachable.init 5 10 (by decide))
  exact ⟨rfl, by decide, h.2.1 rfl (by decide)⟩

/-! ## Sv39 page table (mm/page_table.rs, mm/address.rs) -/

-- Embeds the `PTEFlags` bitflags (mm/page_table.rs): V/R/W/X/U/G/A/D in
-- the low 8 bits.
namespace PTEFlags

def V : Nat := 1
def R : Nat := 2
def W : Nat := 4
def X : Nat := 8
def U : Nat := 16
def G : Nat := 32
def A : Nat := 64
def D : Nat := 128

end PTEFlags

/-- Embeds `PageTableEntry` (mm/page_table.rs): a 64-bit value, PPN in
bits 10..54 and flags in the low 8 bits. -/
structure PageTableEntry where
  bits : Nat
deriving DecidableEq, Repr

/-- Embeds `PageTableEntry::new`: `bits = ppn << 10 | flags`. -/
def PageTableEntry.new (ppn flags : Nat) : PageTableEntry :=
  { bits := ppn <<< 10 ||| flags }

/-- Embeds `PageTableEntry::empty`: the all-zero entry. -/
def PageTableEntry.empty : PageTableEntry := { bits := 0 }

/-- Embeds `PageTableEntry::ppn`: `bits >> 10 & ((1 << 44) - 1)`. -/
def PageTableEntry.ppn (pte : PageTableEntry) : Nat :=
  (pte.bits >>> 10) &&& ((1 <<< 44) - 1)

/-- Embeds `PageTableEntry::flags`: the bits truncated to a u8. -/
def PageTableEntry.flags (pte : PageTableEntry) : Nat :=
  pte.bits % 256

/-- Embeds `PageTableEntry::is_valid`. -/
def PageTableEntry.is_valid (pte : PageTableEntry) : Bool :=
  (pte.flags &&& PTEFlags.V) != 0

/-- Embeds `PageTableEntry::readable`. -/
def PageTableEntry.readable (pte : PageTableEntry) : Bool :=
  (pte.flags &&& PTEFlags.R) != 0

/-- Embeds `PageTableEntry::writable`. -/
def PageTableEntry.writable (pte : PageTableEntry) : Bool :=
  (pte.flags &&& PTEFlags.W) != 0

/-- Embeds `PageTableEntry::executable`. -/
def PageTableEntry.executable (pte : PageTableEntry) : Bool :=
  (pte.flags &&& PTEFlags.X) != 0

/-- Physical memory as seen through `PhysPageNum::get_pte_array`
(mm/address.rs): each physical frame is an array of 512 page-table
entries, indexed by frame PPN and entry index. -/
abbrev Mem := Nat → Nat → PageTableEntry

/-- Write one page-table entry (`*pte = ...` through `get_pte_array`). -/
def memWrite (m : Mem) (f i : Nat) (v : PageTableEntry) : Mem :=
  fun g j => if g = f ∧ j = i then v else m g j

/-- Zero a whole frame, as `FrameTracker::new` does on allocation
(mm/frame_allocator.rs). -/
def memZeroFrame (m : Mem) (f : Nat) : Mem :=
  fun g j => if g = f then PageTableEntry.empty else m g j

/-- Embeds `PageTable` (mm/page_table.rs): the root PPN plus the list of
directory frames owned through `FrameTracker`s (data frames are owned by
the address-space regions, not here). -/
structure PageTable where
  root_ppn : Nat
  frames : List Nat
deriving DecidableEq, Repr

/-- A page table together with the machine state its operations touch:
the PTE memory and the global frame allocator. -/
structure PTState where
  mem : Mem
  fa : StackFrameAllocator
  pt : PageTable

/-- Embeds index 0 of `VirtPageNum::indexes` (mm/address.rs): the top
9-bit group of the 27-bit VPN. -/
def idx0 (vpn : Nat) : Nat := (vpn >>> 18) &&& 511

/-- Embeds index 1 of `VirtPageNum::indexes`: the middle 9-bit group. -/
def idx1 (vpn : Nat) : Nat := (vpn >>> 9) &&& 511

/-- Embeds index 2 of `VirtPageNum::indexes`: the low 9-bit group. -/
def idx2 (vpn : Nat) : Nat := vpn &&& 511

/-- Embeds `PageTable::find_pte`: non-creating three-level walk.  The
two directory levels are checked for V; at level 2 the entry is returned
without any check. -/
def PTState.find_pte (s : PTState) (vpn : Nat) : Option PageTableEntry :=
  let pte0 := s.mem s.pt.root_ppn (idx0 vpn)
  if pte0.is_valid then
    let pte1 := s.mem pte0.ppn (idx1 vpn)
    if pte1.is_valid then some (s.mem pte1.ppn (idx2 vpn))
    else none
  else none

/-- Embeds `PageTable::translate`: `find_pte(vpn).copied()`. -/
def PTState.translate (s : PTState) (vpn : Nat) : Option PageTableEntry :=
  s.find_pte vpn

/-- Embeds `PAGE_SIZE` (config; the source uses 4096). -/
def PAGE_SIZE : Nat := 4096

/-- Embeds `PageTable::translate_va`: translate the page, then add the
page offset to the aligned physical address. -/
def PTState.translate_va (s : PTState) (va : Nat) : Option Nat :=
  (s.find_pte (va / PAGE_SIZE)).map
    (fun pte => pte.ppn * PAGE_SIZE + va % PAGE_SIZE)

/-- Embeds `PhysAddr::get_mut` (mm/address.rs:166-168):
`(self.0 as *mut T).as_mut().unwrap()`.  `as_mut` returns `None` exactly
for the null pointer, so the unwrap panics (none) when the physical
address is 0; otherwise the returned reference targets kernel virtual
address `pa` (the kernel accesses physical memory through its identity
mapping). -/
def PhysAddr.get_mut (pa : Nat) : Option Nat :=
  if pa = 0 then none else some pa

/-- Embeds `translated_refmut` (mm/page_table.rs:229-238): build a page
table view from the token, then
`translate_va(va).unwrap().get_mut()` — two unwraps: the walk unwrap of
`translate_va`, then the null-pointer unwrap inside `PhysAddr::get_mut`.
Returns the kernel virtual address of the obtained `&mut`, none meaning
one of the unwraps panics. -/
def PTState.translated_refmut (s : PTState) (ptr : Nat) : Option Nat :=
  (s.translate_va ptr).bind PhysAddr.get_mut

/-- Embeds one level of the `find_pte_create` loop (mm/page_table.rs):
if the entry at `(ppn, idx)` is invalid, allocate a zeroed frame from
the frame allocator (none if the `frame_alloc().unwrap()` panics), link
it with a V-only entry and append it to the owned frames; return the
state and the next-level PPN re-read from the entry. -/
def PTState.stepCreate (s : PTState) (ppn idx : Nat) :
    Option (PTState × Nat) :=
  let pte := s.mem ppn idx
  if pte.is_valid then some (s, pte.ppn)
  else
    match s.fa.alloc with
    | (none, _) => none
    | (some f, fa') =>
      let newpte := PageTableEntry.new f PTEFlags.V
      some ({ mem := memWrite (memZeroFrame s.mem f) ppn idx newpte,
              fa := fa',
              pt := { s.pt with frames := s.pt.frames ++ [f] } },
            newpte.ppn)

/-- Embeds `PageTable::find_pte_create`: walk the two directory levels,
creating missing directories, and return the leaf location
`(frame, index)` together with the possibly-extended state. -/
def PTState.find_pte_create (s : PTState) (vpn : Nat) :
    Option (PTState × Nat × Nat) :=
  match s.stepCreate s.pt.root_ppn (idx0 vpn) with
  | none => none
  | some (s1, p1) =>
    match s1.stepCreate p1 (idx1 vpn) with
    | none => none
    | some (s2, p2) => some (s2, p2, idx2 vpn)

/-- Embeds `PageTable::map`: `find_pte_create`, assert the leaf is
invalid (none models the "is mapped before mapping" panic), then write
`PTE::new(ppn, flags | V)`. -/
def PTState.map (s : PTState) (vpn ppn flags : Nat) : Option PTState :=
  match s.find_pte_create vpn with
  | none => none
  | some (s', f, i) =>
    if (s'.mem f i).is_valid then none
    else some { s' with
                mem := memWrite s'.mem f i
                  (PageTableEntry.new ppn (flags ||| PTEFlags.V)) }

/-- Embeds `PageTable::unmap`: `find_pte_create`, assert the leaf is
valid (none models the "is invalid before unmapping" panic), then zero
the entry. -/
def PTState.unmap (s : PTState) (vpn : Nat) : Option PTState :=
  match s.find_pte_create vpn with
  | none => none
  | some (s', f, i) =>
    if (s'.mem f i).is_valid then
      some { s' with mem := memWrite s'.mem f i PageTableEntry.empty }
    else none

/-- Composition `map(vpn, ppn, flags)` followed by `unmap(vpn)`. -/
def PTState.mapThenUnmap (s : PTState) (vpn ppn flags : Nat) :
    Option PTState :=
  (s.map vpn ppn flags).bind (fun s1 => s1.unmap vpn)

/-! ## C2: translate and the validity of the returned PTE -/

/-- Concrete memory for the C2 counterexample: frame 0 is a root
directory whose entry 0 points to frame 1, frame 1 points to frame 2,
and frame 2 (the leaf directory) is all zero — exactly the layout left
behind by `map` followed by `unmap` of VPN 0. -/
def c2mem : Mem := fun f i =>
  if f = 0 ∧ i = 0 then PageTableEntry.new 1 PTEFlags.V
  else if f = 1 ∧ i = 0 then PageTableEntry.new 2 PTEFlags.V
  else PageTableEntry.empty

/-- Concrete page-table state for the C2 counterexample. -/
def c2state : PTState :=
  { mem := c2mem, fa := ⟨3, 100, []⟩,
    pt := { root_ppn := 0, frames := [0, 1, 2] } }

/-- C2 counterexample: `translate` can return `some pte` whose V bit is
clear — here the walk reaches an existing but zeroed leaf entry, so
`translate(0).is_some()` holds while the returned PTE has V = 0,
refuting the claim that `is_some` implies V = 1. -/
theorem translate_some_of_invalid_leaf :
    c2state.translate 0 = some PageTableEntry.empty ∧
    (c2state.translate 0).isSome = true ∧
    PageTableEntry.empty.is_valid = false := by decide

/-- C2 (amended): `translate(vpn)` returns `None` exactly when one of
the two directory-level entries on the walk has V = 0; when both are
valid it returns `Some` of the leaf entry regardless of the leaf's own V
bit, so `is_some` guarantees a valid directory path but not a valid
leaf. -/
theorem translate_characterization (s : PTState) (vpn : Nat) :
    (s.translate vpn = none ↔
      ((s.mem s.pt.root_ppn (idx0 vpn)).is_valid = false ∨
       ((s.mem s.pt.root_ppn (idx0 vpn)).is_valid = true ∧
        (s.mem (s.mem s.pt.root_ppn (idx0 vpn)).ppn (idx1 vpn)).is_valid
          = false))) ∧
    (∀ pte, s.translate vpn = some pte →
      (s.mem s.pt.root_ppn (idx0 vpn)).is_valid = true ∧
      (s.mem (s.mem s.pt.root_ppn (idx0 vpn)).ppn (idx1 vpn)).is_valid
        = true ∧
      pte = s.mem
        (s.mem (s.mem s.pt.root_ppn (idx0 vpn)).ppn (idx1 vpn)).ppn
        (idx2 vpn)) := by
  unfold PTState.translate PTState.find_pte
  cases h0 : (s.mem s.pt.root_ppn (idx0 vpn)).is_valid with
  | false => simp [h0]
  | true =>
    cases h1 :
        (s.mem (s.mem s.pt.root_ppn (idx0 vpn)).ppn (idx1 vpn)).is_valid with
    | false => simp [h0, h1]
    | true => simp [h0, h1]

/-- C2 amended-theorem witness: the characterization applied to the
concrete state `c2state` at VPN 0, hypotheses discharged by
evaluation. -/
theorem translate_characterization_witness :
    (c2state.mem c2state.pt.root_ppn (idx0 0)).is_valid = true ∧
    (c2state.mem (c2state.mem c2state.pt.root_ppn (idx0 0)).ppn
      (idx1 0)).is_valid = true ∧
    PageTableEntry.empty = c2state.mem
      (c2state.mem (c2state.mem c2state.pt.root_ppn (idx0 0)).ppn
        (idx1 0)).ppn (idx2 0) :=
  (translate_characterization c2state 0).2 PageTableEntry.empty (by decide)

/-! ## Helper lemmas about PTE bit manipulation -/

/-- Reading the slot just written. -/
theorem memWrite_self (m : Mem) (f i : Nat) (v : PageTableEntry) :
    memWrite m f i v f i = v := by
  simp [memWrite]

/-- Reading any other slot is unchanged by a write. -/
theorem memWrite_other (m : Mem) (f i : Nat) (v : PageTableEntry)
    (g j : Nat) (h : ¬ (g = f ∧ j = i)) : memWrite m f i v g j = m g j := by
  simp [memWrite, h]

/-- The empty entry has V = 0. -/
theorem empty_not_valid : PageTableEntry.empty.is_valid = false := by decide

/-- An entry built with an odd flag field (V set) is valid. -/
theorem is_valid_new_of_odd (p fl : Nat) (h : fl % 2 = 1) :
    (PageTableEntry.new p fl).is_valid = true := by
  show ((p <<< 10 ||| fl) % 256 &&& 1 != 0) = true
  rw [Nat.and_one_is_mod]
  have hb : (p <<< 10 ||| fl).testBit 0 = true := by
    rw [Nat.testBit_or]
    have hfl : fl.testBit 0 = true := by
      rw [Nat.testBit_zero]
      exact decide_eq_true h
    simp [hfl]
  rw [Nat.testBit_zero] at hb
  have h2 : (p <<< 10 ||| fl) % 2 = 1 := of_decide_eq_true hb
  have h3 : (p <<< 10 ||| fl) % 256 % 2 = 1 := by omega
  simp [h3]

/-- Oring in a flag keeps the result odd when the flag V (bit 0) is
included. -/
theorem or_V_mod_two (fl : Nat) : (fl ||| PTEFlags.V) % 2 = 1 := by
  have hb : (fl ||| PTEFlags.V).testBit 0 = true := by
    rw [Nat.testBit_or]
    have h1 : (PTEFlags.V).testBit 0 = true := by decide
    simp [h1]
  rw [Nat.testBit_zero] at hb
  exact of_decide_eq_true hb

/-! ## C3: map followed by unmap of the same VPN -/

/-- Byte-identity of the page-table part of two states: the same root,
the same set of owned directory frames, with identical contents. -/
def ptIdentical (a b : PTState) : Prop :=
  a.pt = b.pt ∧ ∀ f, f ∈ a.pt.frames → ∀ i, a.mem f i = b.mem f i

/-- All-zero memory used by the C3 counterexample. -/
def c3mem : Mem := fun _ _ => PageTableEntry.empty

/-- C3 counterexample start state: a freshly created page table (one
zeroed root frame, as `PageTable::new` leaves it). -/
def c3start : PTState :=
  { mem := c3mem, fa := ⟨1, 100, []⟩,
    pt := { root_ppn := 0, frames := [0] } }

/-- The state after `map(0, 7, R)` then `unmap(0)` on `c3start`. -/
def c3after : PTState :=
  (c3start.mapThenUnmap 0 7 PTEFlags.R).getD c3start

/-- C3 counterexample: on a fresh page table, VPN 0 is unmapped, yet
`map(0, 7, R)` followed by `unmap(0)` does not restore the original
state — the map created two directory frames that `unmap` does not
free, so the set of owned frames grows from `[0]` to `[0, 1, 2]` and
the table is not byte-identical to its pre-map state. -/
theorem map_unmap_not_identical :
    c3start.translate 0 = none ∧
    c3start.mapThenUnmap 0 7 PTEFlags.R = some c3after ∧
    c3after.pt.frames = [0, 1, 2] ∧
    c3start.pt.frames = [0] ∧
    ¬ ptIdentical c3after c3start := by
  refine ⟨by decide, rfl, by decide, by decide, ?_⟩
  intro h
  have h1 : c3after.pt.frames = c3start.pt.frames :=
    congrArg PageTable.frames h.1
  have h2 : c3after.pt.frames = [0, 1, 2] := by decide
  have h3 : c3start.pt.frames = [0] := by decide
  rw [h2, h3] at h1
  exact absurd h1 (by decide)

/-- C3 (amended): when the directory path for `vpn` already exists (both
directory-level entries are valid, and — as in any well-formed table —
the leaf slot is not one of the two directory slots of its own walk) and
the leaf entry is the empty (all-zero) PTE, then `map(vpn, ppn, flags)`
followed by `unmap(vpn)` restores the page table byte-identically: same
root, same owned frames, same contents everywhere, and the frame
allocator is untouched.  (When the path does not exist, the directories
created by `map` persist, as the counterexample shows.) -/
theorem map_unmap_identical_on_existing_path
    (s : PTState) (vpn ppn flags : Nat)
    (h0 : (s.mem s.pt.root_ppn (idx0 vpn)).is_valid = true)
    (h1 : (s.mem (s.mem s.pt.root_ppn (idx0 vpn)).ppn (idx1 vpn)).is_valid
        = true)
    (hleaf : s.mem (s.mem (s.mem s.pt.root_ppn (idx0 vpn)).ppn
        (idx1 vpn)).ppn (idx2 vpn) = PageTableEntry.empty)
    (hne0 : ¬ ((s.mem (s.mem s.pt.root_ppn (idx0 vpn)).ppn (idx1 vpn)).ppn
          = s.pt.root_ppn ∧ idx2 vpn = idx0 vpn))
    (hne1 : ¬ ((s.mem (s.mem s.pt.root_ppn (idx0 vpn)).ppn (idx1 vpn)).ppn
          = (s.mem s.pt.root_ppn (idx0 vpn)).ppn ∧ idx2 vpn = idx1 vpn)) :
    ∃ s', s.mapThenUnmap vpn ppn flags = some s' ∧
      ptIdentical s' s ∧ s'.fa = s.fa ∧ ∀ f i, s'.mem f i = s.mem f i := by
  have hvnew : (PageTableEntry.new ppn (flags ||| PTEFlags.V)).is_valid
      = true :=
    is_valid_new_of_odd ppn (flags ||| PTEFlags.V) (or_V_mod_two flags)
  have hleafv : (s.mem (s.mem (s.mem s.pt.root_ppn (idx0 vpn)).ppn
      (idx1 vpn)).ppn (idx2 vpn)).is_valid = false := by
    rw [hleaf]
    exact empty_not_valid
  set w2 := (s.mem (s.mem s.pt.root_ppn (idx0 vpn)).ppn (idx1 vpn)).ppn
    with hw2
  set m1 := memWrite s.mem w2 (idx2 vpn)
      (PageTableEntry.new ppn (flags ||| PTEFlags.V)) with hm1
  -- the state after the map
  have hmap : s.map vpn ppn flags = some { s with mem := m1 } := by
    unfold PTState.map PTState.find_pte_create PTState.stepCreate
    simp [h0, h1, hleafv, hm1, hw2]
  -- reads of the three path slots after the map
  have hr0 : m1 s.pt.root_ppn (idx0 vpn) = s.mem s.pt.root_ppn (idx0 vpn) :=
    memWrite_other _ _ _ _ _ _ (fun ⟨ha, hb⟩ => hne0 ⟨ha.symm, hb.symm⟩)
  have hr1 : m1 (s.mem s.pt.root_ppn (idx0 vpn)).ppn (idx1 vpn)
      = s.mem (s.mem s.pt.root_ppn (idx0 vpn)).ppn (idx1 vpn) :=
    memWrite_other _ _ _ _ _ _ (fun ⟨ha, hb⟩ => hne1 ⟨ha.symm, hb.symm⟩)
  have hr2 : m1 w2 (idx2 vpn)
      = PageTableEntry.new ppn (flags ||| PTEFlags.V) :=
    memWrite_self _ _ _ _
  have hunmap : ({ s with mem := m1 } : PTState).unmap vpn = some
      { s with mem := memWrite m1 w2 (idx2 vpn) PageTableEntry.empty } := by
    unfold PTState.unmap PTState.find_pte_create PTState.stepCreate
    simp only []
    rw [hr0]
    simp only [h0, if_true]
    rw [hr1]
    simp only [h1, if_true]
    rw [hr2]
    simp [hvnew]
  refine ⟨{ s with mem := memWrite m1 w2 (idx2 vpn) PageTableEntry.empty },
    ?_, ?_, rfl, ?_⟩
  · unfold PTState.mapThenUnmap
    rw [hmap]
    exact hunmap
  · refine ⟨rfl, fun f _ i => ?_⟩
    show memWrite m1 w2 (idx2 vpn) PageTableEntry.empty f i = s.mem f i
    by_cases hfi : f = w2 ∧ i = idx2 vpn
    · obtain ⟨rfl, rfl⟩ := hfi
      rw [memWrite_self, hleaf]
    · rw [memWrite_other _ _ _ _ _ _ hfi, hm1,
        memWrite_other _ _ _ _ _ _ hfi]
  · intro f i
    show memWrite m1 w2 (idx2 vpn) PageTableEntry.empty f i = s.mem f i
    by_cases hfi : f = w2 ∧ i = idx2 vpn
    · obtain ⟨rfl, rfl⟩ := hfi
      rw [memWrite_self, hleaf]
    · rw [memWrite_other _ _ _ _ _ _ hfi, hm1,
        memWrite_other _ _ _ _ _ _ hfi]

/-- Memory with an existing (fully valid) directory path for VPN 0, used
as the C3 amended-theorem witness. -/
def c3wmem : Mem := fun f i =>
  if f = 0 ∧ i = 0 then PageTableEntry.new 1 PTEFlags.V
  else if f = 1 ∧ i = 0 then PageTableEntry.new 2 PTEFlags.V
  else PageTableEntry.empty

/-- Witness start state for the C3 amended theorem. -/
def c3wstate : PTState :=
  { mem := c3wmem, fa := ⟨3, 100, []⟩,
    pt := { root_ppn := 0, frames := [0, 1, 2] } }

/-- C3 amended-theorem witness: the round trip applied to a concrete
state whose directory path for VPN 0 exists, hypotheses discharged by
evaluation. -/
theorem map_unmap_identical_witness :
    ∃ s', c3wstate.mapThenUnmap 0 7 PTEFlags.W = some s' ∧
      ptIdentical s' c3wstate ∧ s'.fa = c3wstate.fa ∧
      ∀ f i, s'.mem f i = c3wstate.mem f i :=
  map_unmap_identical_on_existing_path c3wstate 0 7 PTEFlags.W
    (by decide) (by decide) (by decide) (by decide) (by decide)

/-! ## Address-space construction (mm/memory_set.rs) -/

/-- Embeds `TRAMPOLINE`.  Modelled from the spec: `config.rs` is not
under src/; section 6 of the specification fixes `TRAMPOLINE` as the
highest page of the 64-bit virtual address space,
`usize::MAX - PAGE_SIZE + 1`. -/
def TRAMPOLINE : Nat := 2 ^ 64 - PAGE_SIZE

/-- The VPN of the trampoline page, `VirtAddr::from(TRAMPOLINE).floor()`
(the conversion asserts page alignment, which holds). -/
def TRAMP_VPN : Nat := TRAMPOLINE / PAGE_SIZE

/-- Embeds `MemorySet::new_bare` together with `PageTable::new`:
allocate one frame (none if `frame_alloc().unwrap()` panics), zero it
(`FrameTracker::new`), and make it the root and sole owned frame.
`new_bare` registers no region and does not map the trampoline. -/
def PTState.new_bare (m : Mem) (fa : StackFrameAllocator) :
    Option PTState :=
  match fa.alloc with
  | (none, _) => none
  | (some f, fa') =>
    some { mem := memZeroFrame m f, fa := fa',
           pt := { root_ppn := f, frames := [f] } }

/-- Embeds `MemorySet::map_trampoline`: a single direct
`page_table.map(VPN(TRAMPOLINE), PPN(strampoline), R | X)` without
registering a region. -/
def PTState.map_trampoline (s : PTState) (strampoline_ppn : Nat) :
    Option PTState :=
  s.map TRAMP_VPN strampoline_ppn (PTEFlags.R ||| PTEFlags.X)

/-- A sequence of `page_table.map` calls, as performed by
`MemorySet::push` through `MapArea::map`/`map_one` for each VPN of each
pushed area. -/
def PTState.mapMany : PTState → List (Nat × Nat × Nat) → Option PTState
  | s, [] => some s
  | s, (vpn, ppn, fl) :: rest =>
    match s.map vpn ppn fl with
    | none => none
    | some s' => s'.mapMany rest

/-- Embeds the shared skeleton of `MemorySet::new_kernel`,
`MemorySet::from_elf` and `MemorySet::from_existed_user`: each begins
with `new_bare()` followed immediately by `map_trampoline()`, and then
only pushes areas, i.e. performs further `page_table.map` calls (the
`ops` list abstracts which VPNs those constructors map — linker symbols
and ELF contents are external inputs).  The data copies those
constructors also perform (`copy_data`, the fork page copy) write into
allocator-fresh data frames, never through the page-table slots
modelled here. -/
def buildUserLikeSpace (m : Mem) (fa : StackFrameAllocator)
    (strampoline_ppn : Nat) (ops : List (Nat × Nat × Nat)) :
    Option PTState :=
  (PTState.new_bare m fa).bind fun s0 =>
    (s0.map_trampoline strampoline_ppn).bind fun s1 => s1.mapMany ops

/-- Well-formedness of the frame-allocator state, as maintained by the
kernel: no duplicate recycled frame, recycled frames lie below the
cursor, the cursor stays within the limit, and the limit is a physical
page number (below 2^44). -/
def FAok (fa : StackFrameAllocator) : Prop :=
  fa.recycled.Nodup ∧ (∀ p ∈ fa.recycled, p < fa.current) ∧
  fa.current ≤ fa.end_ ∧ fa.end_ ≤ 2 ^ 44

/-- The allocator can never again hand out any frame in `S`: every
element of `S` is outside the recycled list and below the cursor.  This
holds for the frames currently owned by a page table. -/
def avoids (fa : StackFrameAllocator) (S : List Nat) : Prop :=
  ∀ p ∈ S, p ∉ fa.recycled ∧ p < fa.current

/-- A successful allocation from a well-formed allocator yields a
well-formed state, a frame below 2^44 that avoids every avoided set,
and the new state avoids the allocated frame. -/
theorem StackFrameAllocator.alloc_some (fa : StackFrameAllocator)
    (f : Nat) (fa' : StackFrameAllocator) (hok : FAok fa)
    (h : fa.alloc = (some f, fa')) :
    FAok fa' ∧ f < 2 ^ 44 ∧
    (∀ S, avoids fa S → avoids fa' S ∧ f ∉ S) ∧ avoids fa' [f] := by
  obtain ⟨hnd, hlt, hce, he⟩ := hok
  unfold StackFrameAllocator.alloc at h
  split at h
  · next p rest hrec =>
    injection h with h1 h2
    injection h1 with h1
    subst h1
    subst h2
    rw [hrec] at hnd hlt
    have hfc : p < fa.current := hlt p (by simp)
    refine ⟨⟨hnd.of_cons, fun q hq => hlt q (by simp [hq]), hce, he⟩,
      by omega, ?_, ?_⟩
    · intro S hS
      refine ⟨fun q hq => ⟨fun hmem => (hS q hq).1 (by simp [hrec, hmem]),
        (hS q hq).2⟩, fun hfS => (hS p hfS).1 (by simp [hrec])⟩
    · intro q hq
      simp at hq
      subst hq
      exact ⟨(List.nodup_cons.mp hnd).1, hfc⟩
  · split at h
    · exact absurd h (by simp)
    · next hrec hne =>
      injection h with h1 h2
      injection h1 with h1
      subst h1
      subst h2
      refine ⟨⟨?_, ?_, ?_, he⟩, by omega, ?_, ?_⟩
      · show fa.recycled.Nodup
        exact hnd
      · intro p hp
        replace hp : p ∈ fa.recycled := hp
        have := hlt p hp
        show p < fa.current + 1
        omega
      · show fa.current + 1 ≤ fa.end_
        omega
      · intro S hS
        refine ⟨fun q hq => ⟨(hS q hq).1, ?_⟩, fun hfS => ?_⟩
        · have := (hS q hq).2
          show q < fa.current + 1
          omega
        · have := (hS fa.current hfS).2
          omega
      · intro q hq
        simp at hq
        subst hq
        refine ⟨fun hmem => ?_, ?_⟩
        · replace hmem : fa.current ∈ fa.recycled := hmem
          have := hlt fa.current hmem
          omega
        · show fa.current < fa.current + 1
          omega

/-- Reading a zeroed frame. -/
theorem memZeroFrame_self (m : Mem) (f j : Nat) :
    memZeroFrame m f f j = PageTableEntry.empty := by
  simp [memZeroFrame]

/-- Zeroing one frame leaves other frames unchanged. -/
theorem memZeroFrame_other (m : Mem) (f g j : Nat) (h : g ≠ f) :
    memZeroFrame m f g j = m g j := by
  simp [memZeroFrame, h]

/-- The flag byte of a constructed PTE: the shifted PPN contributes
nothing below bit 10. -/
theorem flags_new (p fl : Nat) :
    (PageTableEntry.new p fl).flags = fl % 256 := by
  show (p <<< 10 ||| fl) % 256 = fl % 256
  have h256 : (256 : Nat) = 2 ^ 8 := by norm_num
  rw [h256, ← Nat.and_pow_two_sub_one_eq_mod,
    ← Nat.and_pow_two_sub_one_eq_mod]
  apply Nat.eq_of_testBit_eq
  intro i
  rw [Nat.testBit_and, Nat.testBit_and, Nat.testBit_or,
    Nat.testBit_shiftLeft, Nat.testBit_two_pow_sub_one]
  by_cases h : i < 8
  · have h10 : ¬ (10 ≤ i) := by omega
    simp [h, h10]
  · simp [h]

/-- The PPN field of a constructed PTE round-trips when the PPN fits in
44 bits and the flags fit below bit 10. -/
theorem ppn_new (p fl : Nat) (hp : p < 2 ^ 44) (hfl : fl < 2 ^ 10) :
    (PageTableEntry.new p fl).ppn = p := by
  show ((p <<< 10 ||| fl) >>> 10) &&& ((1 <<< 44) - 1) = p
  have h44 : ((1 : Nat) <<< 44) - 1 = 2 ^ 44 - 1 := by
    norm_num [Nat.shiftLeft_eq]
  rw [h44]
  apply Nat.eq_of_testBit_eq
  intro i
  rw [Nat.testBit_and, Nat.testBit_two_pow_sub_one, Nat.testBit_shiftRight,
    Nat.testBit_or, Nat.testBit_shiftLeft]
  have hfltb : fl.testBit (10 + i) = false :=
    Nat.testBit_lt_two_pow
      (lt_of_lt_of_le hfl (Nat.pow_le_pow_right (by norm_num) (by omega)))
  have hsub : 10 + i - 10 = i := by omega
  have hge : (10 : Nat) ≤ 10 + i := by omega
  by_cases h : i < 44
  · simp [hfltb, hsub, hge, h]
  · have hp' : p.testBit i = false :=
      Nat.testBit_lt_two_pow
        (lt_of_lt_of_le hp (Nat.pow_le_pow_right (by norm_num) (by omega)))
    simp [hfltb, hsub, hge, h, hp']

/-- Computation rule: `stepCreate` on a valid entry just follows it. -/
theorem stepCreate_valid (s : PTState) (p i : Nat)
    (hcond : (s.mem p i).is_valid = true) :
    s.stepCreate p i = some (s, (s.mem p i).ppn) := by
  unfold PTState.stepCreate
  simp [hcond]

/-- Computation rule: `stepCreate` on an invalid entry allocates a
zeroed frame, links it and follows the freshly written entry. -/
theorem stepCreate_invalid (s : PTState) (p i : Nat)
    (hcond : (s.mem p i).is_valid = false)
    (f : Nat) (fa' : StackFrameAllocator)
    (halloc : s.fa.alloc = (some f, fa')) :
    s.stepCreate p i = some
      ({ mem := memWrite (memZeroFrame s.mem f) p i
            (PageTableEntry.new f PTEFlags.V),
         fa := fa', pt := { s.pt with frames := s.pt.frames ++ [f] } },
       (PageTableEntry.new f PTEFlags.V).ppn) := by
  unfold PTState.stepCreate
  rw [halloc]
  simp [hcond]

/-- Inversion rule for a successful `stepCreate`. -/
theorem stepCreate_some_inv (s : PTState) (p i : Nat) (s1 : PTState)
    (pn : Nat) (h : s.stepCreate p i = some (s1, pn)) :
    (s1 = s ∧ (s.mem p i).is_valid = true ∧ pn = (s.mem p i).ppn) ∨
    ((s.mem p i).is_valid = false ∧ ∃ f fa', s.fa.alloc = (some f, fa') ∧
      s1 = { mem := memWrite (memZeroFrame s.mem f) p i
                (PageTableEntry.new f PTEFlags.V),
             fa := fa',
             pt := { s.pt with frames := s.pt.frames ++ [f] } } ∧
      pn = (PageTableEntry.new f PTEFlags.V).ppn) := by
  unfold PTState.stepCreate at h
  by_cases hval : (s.mem p i).is_valid = true
  · left
    rw [if_pos hval] at h
    injection h with h1
    injection h1 with hs hp
    exact ⟨hs.symm, hval, hp.symm⟩
  · right
    rw [if_neg hval] at h
    refine ⟨by simpa using hval, ?_⟩
    rcases halloc : s.fa.alloc with ⟨o, fa2⟩
    rw [halloc] at h
    cases o with
    | none => simp at h
    | some f =>
      simp only [] at h
      injection h with h1
      injection h1 with hs hp
      exact ⟨f, fa2, rfl, hs.symm, hp.symm⟩

/-- Computation rule for `find_pte_create` from its two steps. -/
theorem find_pte_create_eq (s : PTState) (vpn : Nat) (s1 : PTState)
    (p1 : Nat) (s2 : PTState) (p2 : Nat)
    (h1 : s.stepCreate s.pt.root_ppn (idx0 vpn) = some (s1, p1))
    (h2 : s1.stepCreate p1 (idx1 vpn) = some (s2, p2)) :
    s.find_pte_create vpn = some (s2, p2, idx2 vpn) := by
  unfold PTState.find_pte_create
  rw [h1]
  show (match s1.stepCreate p1 (idx1 vpn) with
    | none => none
    | some (s2, p2) => some (s2, p2, idx2 vpn)) = some (s2, p2, idx2 vpn)
  rw [h2]

/-- Inversion rule for a successful `find_pte_create`. -/
theorem find_pte_create_some_inv (s : PTState) (vpn : Nat) (s2 : PTState)
    (w j : Nat) (h : s.find_pte_create vpn = some (s2, w, j)) :
    ∃ s1 p1, s.stepCreate s.pt.root_ppn (idx0 vpn) = some (s1, p1) ∧
      s1.stepCreate p1 (idx1 vpn) = some (s2, w) ∧ j = idx2 vpn := by
  unfold PTState.find_pte_create at h
  split at h
  · exact absurd h (by simp)
  · next s1 p1 heq1 =>
    split at h
    · exact absurd h (by simp)
    · next s2' p2' heq2 =>
      injection h with h1
      injection h1 with hs hp
      injection hp with hw hj
      subst hs
      subst hw
      exact ⟨s1, p1, heq1, heq2, hj.symm⟩

/-- Computation rule for a successful `map`. -/
theorem map_eq (s : PTState) (vpn ppn fl : Nat) (s2 : PTState) (w j : Nat)
    (hf : s.find_pte_create vpn = some (s2, w, j))
    (hinv : (s2.mem w j).is_valid = false) :
    s.map vpn ppn fl = some { s2 with mem := memWrite s2.mem w j (PageTableEntry.new ppn (fl ||| PTEFlags.V)) } := by
  unfold PTState.map
  rw [hf]
  simp [hinv]

/-- Inversion rule for a successful `map`. -/
theorem map_some_inv (s : PTState) (vpn ppn fl : Nat) (s' : PTState)
    (h : s.map vpn ppn fl = some s') :
    ∃ s2 w j, s.find_pte_create vpn = some (s2, w, j) ∧
      (s2.mem w j).is_valid = false ∧
      s' = { s2 with mem := memWrite s2.mem w j (PageTableEntry.new ppn (fl ||| PTEFlags.V)) } := by
  unfold PTState.map at h
  split at h
  · exact absurd h (by simp)
  · next s2 w j heq =>
    split at h
    · exact absurd h (by simp)
    · next hinv =>
      injection h with h1
      exact ⟨s2, w, j, heq, by simpa using hinv, h1.symm⟩

/-- Computation rule: `stepCreate` with an exhausted allocator panics. -/
theorem stepCreate_stuck (s : PTState) (p i : Nat)
    (hcond : (s.mem p i).is_valid = false)
    (fa' : StackFrameAllocator) (halloc : s.fa.alloc = (none, fa')) :
    s.stepCreate p i = none := by
  unfold PTState.stepCreate
  rw [halloc]
  simp [hcond]

/-- Computation rule: `find_pte_create` fails if level 0 fails. -/
theorem find_pte_create_stuck0 (s : PTState) (vpn : Nat)
    (h : s.stepCreate s.pt.root_ppn (idx0 vpn) = none) :
    s.find_pte_create vpn = none := by
  unfold PTState.find_pte_create
  rw [h]

/-- Computation rule: `find_pte_create` fails if level 1 fails. -/
theorem find_pte_create_stuck1 (s : PTState) (vpn : Nat) (s1 : PTState)
    (p1 : Nat) (h1 : s.stepCreate s.pt.root_ppn (idx0 vpn) = some (s1, p1))
    (h2 : s1.stepCreate p1 (idx1 vpn) = none) :
    s.find_pte_create vpn = none := by
  unfold PTState.find_pte_create
  rw [h1]
  show (match s1.stepCreate p1 (idx1 vpn) with
    | none => none
    | some (s2, p2) => some (s2, p2, idx2 vpn)) = none
  rw [h2]

/-- Computation rule: `map` fails if the creating walk fails. -/
theorem map_stuck (s : PTState) (vpn ppn fl : Nat)
    (h : s.find_pte_create vpn = none) : s.map vpn ppn fl = none := by
  unfold PTState.map
  rw [h]

/-- A directory entry written by the walk is valid. -/
theorem is_valid_new_V (p : Nat) :
    (PageTableEntry.new p PTEFlags.V).is_valid = true :=
  is_valid_new_of_odd p PTEFlags.V (by decide)

/-- The trampoline leaf entry (flags R | X | V) is valid. -/
theorem is_valid_new_RXV (p : Nat) :
    (PageTableEntry.new p
      (PTEFlags.R ||| PTEFlags.X ||| PTEFlags.V)).is_valid = true :=
  is_valid_new_of_odd p _ (by decide)

/-- Invariant carried through address-space construction: the trampoline
walk path `root = r → f1 → f2` exists with the expected directory and
leaf entries, the frames fit in 44 bits, and the (well-formed) allocator
can never hand any of the three frames out again. -/
def TrampInv (s : PTState) (r f1 f2 sppn : Nat) : Prop :=
  s.pt.root_ppn = r ∧
  s.mem r (idx0 TRAMP_VPN) = PageTableEntry.new f1 PTEFlags.V ∧
  s.mem f1 (idx1 TRAMP_VPN) = PageTableEntry.new f2 PTEFlags.V ∧
  s.mem f2 (idx2 TRAMP_VPN) =
    PageTableEntry.new sppn (PTEFlags.R ||| PTEFlags.X ||| PTEFlags.V) ∧
  f1 < 2 ^ 44 ∧ f2 < 2 ^ 44 ∧
  avoids s.fa [r, f1, f2] ∧ FAok s.fa

/-- One creating step preserves the trampoline invariant: it writes only
to an invalid slot (the three invariant slots are valid) and to a fresh
frame (the allocator avoids the three invariant frames). -/
theorem stepCreate_preserves_TrampInv (s : PTState) (p i : Nat)
    (s1 : PTState) (pn : Nat) (r f1 f2 sppn : Nat)
    (hinv : TrampInv s r f1 f2 sppn)
    (h : s.stepCreate p i = some (s1, pn)) :
    TrampInv s1 r f1 f2 sppn := by
  obtain ⟨hroot, he0, he1, he2, hb1, hb2, hav, hok⟩ := hinv
  rcases stepCreate_some_inv s p i s1 pn h with
    ⟨rfl, _, _⟩ | ⟨hval, f, fa', halloc, hs1, hpn⟩
  · exact ⟨hroot, he0, he1, he2, hb1, hb2, hav, hok⟩
  · obtain ⟨hok', _, havf, _⟩ :=
      StackFrameAllocator.alloc_some s.fa f fa' hok halloc
    obtain ⟨hav', hfno⟩ := havf [r, f1, f2] hav
    have hfr : r ≠ f := fun hh => hfno (by simp [hh])
    have hff1 : f1 ≠ f := fun hh => hfno (by simp [hh])
    have hff2 : f2 ≠ f := fun hh => hfno (by simp [hh])
    have hne0 : ¬ (r = p ∧ idx0 TRAMP_VPN = i) := by
      rintro ⟨ha, hb⟩
      rw [← ha, ← hb, he0, is_valid_new_V] at hval
      simp at hval
    have hne1 : ¬ (f1 = p ∧ idx1 TRAMP_VPN = i) := by
      rintro ⟨ha, hb⟩
      rw [← ha, ← hb, he1, is_valid_new_V] at hval
      simp at hval
    have hne2 : ¬ (f2 = p ∧ idx2 TRAMP_VPN = i) := by
      rintro ⟨ha, hb⟩
      rw [← ha, ← hb, he2, is_valid_new_RXV] at hval
      simp at hval
    subst hs1
    refine ⟨hroot, ?_, ?_, ?_, hb1, hb2, hav', hok'⟩
    · show memWrite (memZeroFrame s.mem f) p i
        (PageTableEntry.new f PTEFlags.V) r (idx0 TRAMP_VPN) = _
      rw [memWrite_other _ _ _ _ _ _ hne0, memZeroFrame_other _ _ _ _ hfr,
        he0]
    · show memWrite (memZeroFrame s.mem f) p i
        (PageTableEntry.new f PTEFlags.V) f1 (idx1 TRAMP_VPN) = _
      rw [memWrite_other _ _ _ _ _ _ hne1, memZeroFrame_other _ _ _ _ hff1,
        he1]
    · show memWrite (memZeroFrame s.mem f) p i
        (PageTableEntry.new f PTEFlags.V) f2 (idx2 TRAMP_VPN) = _
      rw [memWrite_other _ _ _ _ _ _ hne2, memZeroFrame_other _ _ _ _ hff2,
        he2]

/-- The creating walk preserves the trampoline invariant. -/
theorem find_pte_create_preserves_TrampInv (s : PTState) (vpn : Nat)
    (s2 : PTState) (w j : Nat) (r f1 f2 sppn : Nat)
    (hinv : TrampInv s r f1 f2 sppn)
    (h : s.find_pte_create vpn = some (s2, w, j)) :
    TrampInv s2 r f1 f2 sppn := by
  obtain ⟨s1, p1, h1, h2, _⟩ := find_pte_create_some_inv s vpn s2 w j h
  exact stepCreate_preserves_TrampInv s1 p1 (idx1 vpn) s2 w r f1 f2 sppn
    (stepCreate_preserves_TrampInv s s.pt.root_ppn (idx0 vpn) s1 p1
      r f1 f2 sppn hinv h1) h2

/-- A successful `map` preserves the trampoline invariant: its leaf
write targets an invalid slot, and the three invariant slots are
valid. -/
theorem map_preserves_TrampInv (s : PTState) (vpn p fl : Nat)
    (s' : PTState) (r f1 f2 sppn : Nat) (hinv : TrampInv s r f1 f2 sppn)
    (h : s.map vpn p fl = some s') : TrampInv s' r f1 f2 sppn := by
  obtain ⟨s2, w, j, hfind, hwj, rfl⟩ := map_some_inv s vpn p fl s' h
  obtain ⟨hroot, he0, he1, he2, hb1, hb2, hav, hok⟩ :=
    find_pte_create_preserves_TrampInv s vpn s2 w j r f1 f2 sppn hinv hfind
  have hne0 : ¬ (r = w ∧ idx0 TRAMP_VPN = j) := by
    rintro ⟨ha, hb⟩
    rw [← ha, ← hb, he0, is_valid_new_V] at hwj
    simp at hwj
  have hne1 : ¬ (f1 = w ∧ idx1 TRAMP_VPN = j) := by
    rintro ⟨ha, hb⟩
    rw [← ha, ← hb, he1, is_valid_new_V] at hwj
    simp at hwj
  have hne2 : ¬ (f2 = w ∧ idx2 TRAMP_VPN = j) := by
    rintro ⟨ha, hb⟩
    rw [← ha, ← hb, he2, is_valid_new_RXV] at hwj
    simp at hwj
  refine ⟨hroot, ?_, ?_, ?_, hb1, hb2, hav, hok⟩
  · show memWrite s2.mem w j _ r (idx0 TRAMP_VPN) = _
    rw [memWrite_other _ _ _ _ _ _ hne0, he0]
  · show memWrite s2.mem w j _ f1 (idx1 TRAMP_VPN) = _
    rw [memWrite_other _ _ _ _ _ _ hne1, he1]
  · show memWrite s2.mem w j _ f2 (idx2 TRAMP_VPN) = _
    rw [memWrite_other _ _ _ _ _ _ hne2, he2]

/-- A successful sequence of maps preserves the trampoline invariant. -/
theorem mapMany_preserves_TrampInv (ops : List (Nat × Nat × Nat)) :
    ∀ (s s' : PTState) (r f1 f2 sppn : Nat), TrampInv s r f1 f2 sppn →
      s.mapMany ops = some s' → TrampInv s' r f1 f2 sppn := by
  induction ops with
  | nil =>
    intro s s' r f1 f2 sppn hinv h
    unfold PTState.mapMany at h
    injection h with h1
    exact h1 ▸ hinv
  | cons op rest ih =>
    intro s s' r f1 f2 sppn hinv h
    rcases op with ⟨vpn, p, fl⟩
    unfold PTState.mapMany at h
    split at h
    · exact absurd h (by simp)
    · next s1 heq =>
      exact ih s1 s' r f1 f2 sppn
        (map_preserves_TrampInv s vpn p fl s1 r f1 f2 sppn hinv heq) h

/-- Running `map_trampoline` on a freshly created bare page table (root
frame `rp`, zeroed) establishes the trampoline invariant. -/
theorem map_trampoline_establishes (m0 : Mem) (fa1 : StackFrameAllocator)
    (rp sppn : Nat) (s1 : PTState) (hok1 : FAok fa1)
    (havr : avoids fa1 [rp])
    (hzero : ∀ j, m0 rp j = PageTableEntry.empty)
    (h1 : PTState.map_trampoline ⟨m0, fa1, ⟨rp, [rp]⟩⟩ sppn = some s1) :
    ∃ f1 f2, TrampInv s1 rp f1 f2 sppn := by
  unfold PTState.map_trampoline at h1
  have hc0 : ((⟨m0, fa1, ⟨rp, [rp]⟩⟩ : PTState).mem rp
      (idx0 TRAMP_VPN)).is_valid = false := by
    show (m0 rp (idx0 TRAMP_VPN)).is_valid = false
    rw [hzero]
    exact empty_not_valid
  rcases halloc1 : fa1.alloc with ⟨o1, fa2⟩
  cases o1 with
  | none =>
    rw [map_stuck _ _ _ _ (find_pte_create_stuck0 _ _
      (stepCreate_stuck _ rp (idx0 TRAMP_VPN) hc0 fa2 halloc1))] at h1
    exact absurd h1 (by simp)
  | some f1v =>
    obtain ⟨hok2, hf1v44, havf1, havn1⟩ :=
      StackFrameAllocator.alloc_some fa1 f1v fa2 hok1 halloc1
    obtain ⟨havr2, hf1rpmem⟩ := havf1 [rp] havr
    have hf1rp : f1v ≠ rp := fun hh => hf1rpmem (by simp [hh])
    have hstep1 := stepCreate_invalid ⟨m0, fa1, ⟨rp, [rp]⟩⟩ rp
      (idx0 TRAMP_VPN) hc0 f1v fa2 halloc1
    rw [ppn_new f1v PTEFlags.V hf1v44 (by decide)] at hstep1
    have hc1 : (((⟨memWrite (memZeroFrame m0 f1v) rp (idx0 TRAMP_VPN)
        (PageTableEntry.new f1v PTEFlags.V), fa2,
        ⟨rp, [rp] ++ [f1v]⟩⟩ : PTState)).mem f1v
        (idx1 TRAMP_VPN)).is_valid = false := by
      show ((memWrite (memZeroFrame m0 f1v) rp (idx0 TRAMP_VPN)
          (PageTableEntry.new f1v PTEFlags.V)) f1v
          (idx1 TRAMP_VPN)).is_valid = false
      rw [memWrite_other _ _ _ _ _ _ (fun hc => hf1rp hc.1),
          memZeroFrame_self]
      exact empty_not_valid
    rcases halloc2 : fa2.alloc with ⟨o2, fa3⟩
    cases o2 with
    | none =>
      rw [map_stuck _ _ _ _ (find_pte_create_stuck1 _ _ _ _ hstep1
        (stepCreate_stuck _ f1v (idx1 TRAMP_VPN) hc1 fa3 halloc2))] at h1
      exact absurd h1 (by simp)
    | some f2v =>
      obtain ⟨hok3, hf2v44, havf2, havn2⟩ :=
        StackFrameAllocator.alloc_some fa2 f2v fa3 hok2 halloc2
      obtain ⟨havr3, hf2rpmem⟩ := havf2 [rp] havr2
      obtain ⟨havn1b, hf2f1mem⟩ := havf2 [f1v] havn1
      have hf2rp : f2v ≠ rp := fun hh => hf2rpmem (by simp [hh])
      have hf2f1 : f2v ≠ f1v := fun hh => hf2f1mem (by simp [hh])
      have hstep2 := stepCreate_invalid
        ⟨memWrite (memZeroFrame m0 f1v) rp (idx0 TRAMP_VPN)
          (PageTableEntry.new f1v PTEFlags.V), fa2, ⟨rp, [rp] ++ [f1v]⟩⟩
        f1v (idx1 TRAMP_VPN) hc1 f2v fa3 halloc2
      rw [ppn_new f2v PTEFlags.V hf2v44 (by decide)] at hstep2
      have hfind := find_pte_create_eq ⟨m0, fa1, ⟨rp, [rp]⟩⟩ TRAMP_VPN
        _ f1v _ f2v hstep1 hstep2
      have hleaf0 : ((memWrite (memZeroFrame (memWrite (memZeroFrame m0 f1v)
          rp (idx0 TRAMP_VPN) (PageTableEntry.new f1v PTEFlags.V)) f2v)
          f1v (idx1 TRAMP_VPN) (PageTableEntry.new f2v PTEFlags.V)) f2v
          (idx2 TRAMP_VPN)).is_valid = false := by
        rw [memWrite_other _ _ _ _ _ _ (fun hc => hf2f1 hc.1),
          memZeroFrame_self]
        exact empty_not_valid
      have hmap := map_eq ⟨m0, fa1, ⟨rp, [rp]⟩⟩ TRAMP_VPN sppn
        (PTEFlags.R ||| PTEFlags.X) _ f2v (idx2 TRAMP_VPN) hfind hleaf0
      rw [hmap] at h1
      injection h1 with h1
      refine ⟨f1v, f2v, ?_⟩
      rw [← h1]
      refine ⟨rfl, ?_, ?_, ?_, hf1v44, hf2v44, ?_, hok3⟩
      · show (memWrite (memWrite (memZeroFrame (memWrite (memZeroFrame m0
            f1v) rp (idx0 TRAMP_VPN) (PageTableEntry.new f1v PTEFlags.V))
            f2v) f1v (idx1 TRAMP_VPN) (PageTableEntry.new f2v PTEFlags.V))
            f2v (idx2 TRAMP_VPN) (PageTableEntry.new sppn
            (PTEFlags.R ||| PTEFlags.X ||| PTEFlags.V))) rp
            (idx0 TRAMP_VPN) = PageTableEntry.new f1v PTEFlags.V
        rw [memWrite_other _ _ _ _ _ _ (fun hc => hf2rp hc.1.symm),
          memWrite_other _ _ _ _ _ _ (fun hc => hf1rp hc.1.symm),
          memZeroFrame_other _ _ _ _ (fun hc => hf2rp hc.symm),
          memWrite_self]
      · show (memWrite (memWrite (memZeroFrame (memWrite (memZeroFrame m0
            f1v) rp (idx0 TRAMP_VPN) (PageTableEntry.new f1v PTEFlags.V))
            f2v) f1v (idx1 TRAMP_VPN) (PageTableEntry.new f2v PTEFlags.V))
            f2v (idx2 TRAMP_VPN) (PageTableEntry.new sppn
            (PTEFlags.R ||| PTEFlags.X ||| PTEFlags.V))) f1v
            (idx1 TRAMP_VPN) = PageTableEntry.new f2v PTEFlags.V
        rw [memWrite_other _ _ _ _ _ _ (fun hc => hf2f1 hc.1.symm),
          memWrite_self]
      · show (memWrite (memWrite (memZeroFrame (memWrite (memZeroFrame m0
            f1v) rp (idx0 TRAMP_VPN) (PageTableEntry.new f1v PTEFlags.V))
            f2v) f1v (idx1 TRAMP_VPN) (PageTableEntry.new f2v PTEFlags.V))
            f2v (idx2 TRAMP_VPN) (PageTableEntry.new sppn
            (PTEFlags.R ||| PTEFlags.X ||| PTEFlags.V))) f2v
            (idx2 TRAMP_VPN) = PageTableEntry.new sppn
            (PTEFlags.R ||| PTEFlags.X ||| PTEFlags.V)
        rw [memWrite_self]
      · intro q hq
        simp at hq
        rcases hq with rfl | rfl | rfl
        · exact havr3 q (by simp)
        · exact havn1b q (by simp)
        · exact havn2 q (by simp)

/-- The trampoline invariant determines what `translate` returns at the
trampoline VPN. -/
theorem translate_of_TrampInv (s : PTState) (r f1 f2 sppn : Nat)
    (hinv : TrampInv s r f1 f2 sppn) :
    s.translate TRAMP_VPN = some (PageTableEntry.new sppn
      (PTEFlags.R ||| PTEFlags.X ||| PTEFlags.V)) := by
  obtain ⟨hroot, he0, he1, he2, hb1, hb2, _, _⟩ := hinv
  unfold PTState.translate PTState.find_pte
  rw [hroot, he0]
  simp only [is_valid_new_V, if_true]
  rw [ppn_new f1 PTEFlags.V hb1 (by decide), he1]
  simp only [is_valid_new_V, if_true]
  rw [ppn_new f2 PTEFlags.V hb2 (by decide), he2]

/-- Construction through `new_bare` followed by `map_trampoline`
establishes the trampoline invariant. -/
theorem build_establishes_TrampInv (m : Mem) (fa : StackFrameAllocator)
    (sppn : Nat) (hok : FAok fa) (s0 s1 : PTState)
    (h0 : PTState.new_bare m fa = some s0)
    (h1 : s0.map_trampoline sppn = some s1) :
    ∃ r f1 f2, TrampInv s1 r f1 f2 sppn := by
  unfold PTState.new_bare at h0
  rcases halloc : fa.alloc with ⟨o, fa1⟩
  rw [halloc] at h0
  cases o with
  | none => simp at h0
  | some rp =>
    simp only [] at h0
    injection h0 with h0
    obtain ⟨hok1, _, _, havr⟩ :=
      StackFrameAllocator.alloc_some fa rp fa1 hok halloc
    subst h0
    obtain ⟨f1, f2, hinv⟩ := map_trampoline_establishes
      (memZeroFrame m rp) fa1 rp sppn s1 hok1 havr
      (fun j => memZeroFrame_self m rp j) h1
    exact ⟨rp, f1, f2, hinv⟩

/-- C9 (amended): in every address space built by `new_kernel`,
`from_elf` or `from_existed_user` — i.e. by `new_bare` followed
immediately by `map_trampoline` and then any further successful area
mappings — translating VPN(TRAMPOLINE) yields the PTE
`(strampoline_ppn << 10) | R | X | V`: V, R and X set, U clear, and the
PPN equal to the physical page of the trampoline code.  (`new_bare`
alone, although public, installs no trampoline mapping — see the
counterexample.) -/
theorem trampoline_pte_in_built_spaces (m : Mem)
    (fa : StackFrameAllocator) (sppn : Nat) (ops : List (Nat × Nat × Nat))
    (s : PTState) (hok : FAok fa) (hsppn : sppn < 2 ^ 44)
    (hbuild : buildUserLikeSpace m fa sppn ops = some s) :
    s.translate TRAMP_VPN = some (PageTableEntry.new sppn
      (PTEFlags.R ||| PTEFlags.X ||| PTEFlags.V)) ∧
    ∀ pte, s.translate TRAMP_VPN = some pte →
      pte.is_valid = true ∧ pte.readable = true ∧ pte.executable = true ∧
      pte.flags &&& PTEFlags.U = 0 ∧ pte.ppn = sppn := by
  unfold buildUserLikeSpace at hbuild
  rcases hb0 : PTState.new_bare m fa with _ | s0
  · rw [hb0] at hbuild
    simp at hbuild
  · rw [hb0] at hbuild
    rw [Option.some_bind] at hbuild
    rcases hb1 : s0.map_trampoline sppn with _ | s1
    · rw [hb1] at hbuild
      simp at hbuild
    · rw [hb1] at hbuild
      rw [Option.some_bind] at hbuild
      obtain ⟨r, f1, f2, hinv1⟩ :=
        build_establishes_TrampInv m fa sppn hok s0 s1 hb0 hb1
      have hinv := mapMany_preserves_TrampInv ops s1 s r f1 f2 sppn
        hinv1 hbuild
      have htr := translate_of_TrampInv s r f1 f2 sppn hinv
      refine ⟨htr, ?_⟩
      intro pte hpte
      rw [htr] at hpte
      injection hpte with hpte
      subst hpte
      have hfl : (PageTableEntry.new sppn
          (PTEFlags.R ||| PTEFlags.X ||| PTEFlags.V)).flags = 11 := by
        rw [flags_new]
        decide
      refine ⟨is_valid_new_RXV sppn, ?_, ?_, ?_, ?_⟩
      · unfold PageTableEntry.readable
        rw [hfl]
        decide
      · unfold PageTableEntry.executable
        rw [hfl]
        decide
      · rw [hfl]
        decide
      · exact ppn_new sppn _ hsppn (by decide)

/-- All-zero memory for the C9 counterexample and witness. -/
def c9mem : Mem := fun _ _ => PageTableEntry.empty

/-- Fresh boot-time allocator state for the C9 counterexample and
witness. -/
def c9fa : StackFrameAllocator := ⟨0, 100, []⟩

/-- C9 counterexample: `new_bare` is part of the `MemorySet` interface
(it is public and builds a fresh address space), yet the space it
returns contains no trampoline mapping at all: translating
VPN(TRAMPOLINE) gives `None`, refuting the claim for the `new_bare`
constructor. -/
theorem new_bare_has_no_trampoline :
    (PTState.new_bare c9mem c9fa).map
      (fun s0 => s0.translate TRAMP_VPN) = some none := by decide

/-- Concrete op list for the C9 witness: one further user mapping. -/
def c9ops : List (Nat × Nat × Nat) := [(5, 77, PTEFlags.R ||| PTEFlags.W)]

/-- C9 amended-theorem witness: a concrete build (bare space, trampoline,
one extra mapping) evaluated through the theorem. -/
theorem trampoline_pte_witness :
    (buildUserLikeSpace c9mem c9fa 9 c9ops).map
      (fun s => s.translate TRAMP_VPN) = some (some (PageTableEntry.new 9
        (PTEFlags.R ||| PTEFlags.X ||| PTEFlags.V))) := by
  cases hb : buildUserLikeSpace c9mem c9fa 9 c9ops with
  | none =>
    have hs : (buildUserLikeSpace c9mem c9fa 9 c9ops).isSome = true := by
      decide
    rw [hb] at hs
    exact absurd hs (by simp)
  | some s =>
    have h := trampoline_pte_in_built_spaces c9mem c9fa 9 c9ops s
      ⟨by decide, by decide, by decide, by decide⟩ (by decide) hb
    simp [h.1]

/-! ## Scheduler dispatch (task/manager.rs) -/

/-- A ready-queue entry as the active `TaskManager::fetch` reads it.
The `task_pass` field is modelled from the spec: the committed stride
variant of `fetch` reads `inner_exclusive_access().task_pass`, but
`TaskControlBlockInner` (task/task.rs) declares no such field — the
specification flags exactly this, and the file does not compile as
committed.  It is modelled as the per-task counter the code reads. -/
structure StrideTask where
  pid : Nat
  task_pass : Nat
deriving DecidableEq, Repr

/-- Embeds `core::usize::MAX`, the initial `min_pass`. -/
def USIZE_MAX : Nat := 2 ^ 64 - 1

/-- Embeds the scan loop of `TaskManager::fetch`: for each index in
order, a `task_pass` less than *or equal to* the running minimum
replaces it, so the last index attaining the minimum wins. -/
def scanMinPass : List StrideTask → Nat → Nat → Option Nat → Option Nat
  | [], _, _, best => best
  | t :: rest, i, minp, best =>
    if t.task_pass ≤ minp then scanMinPass rest (i + 1) t.task_pass (some i)
    else scanMinPass rest (i + 1) minp best

/-- Embeds `VecDeque::swap_remove_back`: remove the element at `i`,
filling the gap with the back element. -/
def swap_remove_back (q : List StrideTask) (i : Nat) :
    Option (StrideTask × List StrideTask) :=
  match q[i]? with
  | none => none
  | some t =>
    match q.getLast? with
    | none => none
    | some b => some (t, (q.set i b).dropLast)

namespace TaskManager

/-- Embeds `TaskManager::add`: `push_back` onto the ready queue. -/
def add (q : List StrideTask) (t : StrideTask) : List StrideTask :=
  q ++ [t]

/-- Embeds the active (stride) `TaskManager::fetch`
(task/manager.rs:31-42): scan all queued tasks for the minimal
`task_pass` (ties resolved to the last index, because the comparison is
`<=`), then `swap_remove_back` that index;
`min_pass_index.unwrap()` panics (none) on an empty queue. -/
def fetch (q : List StrideTask) : Option (StrideTask × List StrideTask) :=
  match scanMinPass q 0 USIZE_MAX none with
  | none => none
  | some i => swap_remove_back q i

end TaskManager

/-- C1: evaluation of the committed `fetch` at the claim's failing
input.  Tasks A (pid 1) and B (pid 2) are enqueued in that order with
equal `task_pass` and no fetch between the adds; FIFO (the claim, the
spec mandate, and `fetch`'s own doc comment, which says it pops the
front of the queue) requires A first, but the committed scan returns B,
the later-enqueued task. -/
theorem fetch_returns_later_enqueued_on_equal_pass :
    TaskManager.fetch
        (TaskManager.add (TaskManager.add [] ⟨1, 0⟩) ⟨2, 0⟩)
      = some (⟨2, 0⟩, [⟨1, 0⟩]) ∧
    (⟨2, 0⟩ : StrideTask) ≠ ⟨1, 0⟩ := by decide

/-! ## Trap context and fork (trap/context.rs, task/task.rs,
syscall/process.rs) -/

/-- Embeds `TrapContext` (trap/context.rs): the 32 general registers,
sstatus, sepc, and the three kernel cells (kernel page-table token,
kernel stack pointer, trap-handler entry). -/
structure TrapContext where
  x : Fin 32 → Nat
  sstatus : Nat
  sepc : Nat
  kernel_satp : Nat
  kernel_sp : Nat
  trap_handler : Nat

/-- Embeds `TrapContext::app_init_context`: all registers zero, then
`set_sp` writes x[2]; sepc is the entry point; sstatus is the CSR value
with SPP set to User (passed in, since CSR reads are external). -/
def TrapContext.app_init_context
    (entry sp kernel_satp kernel_sp trap_handler_entry sstatus : Nat) :
    TrapContext :=
  { x := fun i => if i.val = 2 then sp else 0,
    sstatus := sstatus, sepc := entry, kernel_satp := kernel_satp,
    kernel_sp := kernel_sp, trap_handler := trap_handler_entry }

/-- Embeds `PidAllocator` (task/pid.rs): an incrementing counter plus a
LIFO recycled list (head = Vec top). -/
structure PidAllocator where
  current : Nat
  recycled : List Nat
deriving DecidableEq, Repr

/-- Embeds `PidAllocator::alloc`: pop a recycled pid if any, else hand
out `current` and increment. -/
def PidAllocator.alloc : PidAllocator → Nat × PidAllocator
  | ⟨c, []⟩ => (c, ⟨c + 1, []⟩)
  | ⟨c, p :: rest⟩ => (p, ⟨c, rest⟩)

/-- Embeds `KERNEL_STACK_SIZE`.  Modelled from the spec: `config.rs` is
not under src/; the spec requires only a multi-page size, and every
theorem below uses the constant symbolically. -/
def KERNEL_STACK_SIZE : Nat := 2 * PAGE_SIZE

/-- Embeds `kernel_stack_position` (task/pid.rs:71-75): the per-PID
kernel stack `(bottom, top)` with
`top = TRAMPOLINE - pid * (KERNEL_STACK_SIZE + PAGE_SIZE)`. -/
def kernel_stack_position (app_id : Nat) : Nat × Nat :=
  (TRAMPOLINE - app_id * (KERNEL_STACK_SIZE + PAGE_SIZE) -
    KERNEL_STACK_SIZE,
   TRAMPOLINE - app_id * (KERNEL_STACK_SIZE + PAGE_SIZE))

/-- The observable outcome of `sys_fork`: the parent's return value, the
child's trap context as it is enqueued, the child's PID, and the PID
allocator afterwards. -/
structure ForkResult where
  ret : Int
  child_cx : TrapContext
  child_pid : Nat
  pid_alloc : PidAllocator

/-- Embeds `sys_fork` (syscall/process.rs:46-63) together with
`TaskControlBlock::fork` (task/task.rs:151-192).
`MemorySet::from_existed_user` copies every mapped page byte-for-byte
(memory_set.rs:247-258), so the child's trap context starts as an exact
bit copy of the parent's; `fork` then overwrites its `kernel_sp` with
the freshly allocated kernel stack's top, and `sys_fork` writes 0 into
the child's `x[10]` before `add_task`, returning the child's PID. -/
def sys_fork (parent_cx : TrapContext) (pal : PidAllocator) : ForkResult :=
  let ppal := pal.alloc
  let new_pid := ppal.1
  let kernel_stack_top := (kernel_stack_position new_pid).2
  let child0 : TrapContext := { parent_cx with kernel_sp := kernel_stack_top }
  let child1 : TrapContext :=
    { child0 with x := fun i => if i = (10 : Fin 32) then 0 else child0.x i }
  { ret := Int.ofNat new_pid, child_cx := child1, child_pid := new_pid,
    pid_alloc := ppal.2 }

/-- C5: for every fork, the parent's syscall return value equals the new
child's PID; before the child is enqueued its trap context has x[10] set
to 0 and its kernel_sp set to the child's own kernel-stack top, while
every other general register, sepc, sstatus, kernel_satp and
trap_handler equal the parent's at the time of the fork. -/
theorem sys_fork_spec (cx : TrapContext) (pal : PidAllocator) :
    (sys_fork cx pal).ret = Int.ofNat (sys_fork cx pal).child_pid ∧
    (sys_fork cx pal).child_pid = pal.alloc.1 ∧
    (sys_fork cx pal).child_cx.x 10 = 0 ∧
    (∀ i : Fin 32, i ≠ 10 → (sys_fork cx pal).child_cx.x i = cx.x i) ∧
    (sys_fork cx pal).child_cx.sepc = cx.sepc ∧
    (sys_fork cx pal).child_cx.sstatus = cx.sstatus ∧
    (sys_fork cx pal).child_cx.kernel_satp = cx.kernel_satp ∧
    (sys_fork cx pal).child_cx.trap_handler = cx.trap_handler ∧
    (sys_fork cx pal).child_cx.kernel_sp =
      (kernel_stack_position (sys_fork cx pal).child_pid).2 := by
  refine ⟨rfl, rfl, by simp [sys_fork], ?_, rfl, rfl, rfl, rfl, rfl⟩
  intro i hi
  simp [sys_fork, hi]

/-- Concrete parent trap context for the C5 witness. -/
def forkCx : TrapContext :=
  { x := fun i => 100 + i.val, sstatus := 3, sepc := 77,
    kernel_satp := 5, kernel_sp := 6, trap_handler := 9 }

/-- Concrete PID-allocator state for the C5 witness. -/
def forkPal : PidAllocator := ⟨4, []⟩

/-- C5 witness: the fork specification applied at a concrete parent
context and allocator — the parent sees PID 4, register x[3] is
preserved and x[10] is cleared. -/
theorem sys_fork_spec_witness :
    (sys_fork forkCx forkPal).ret = Int.ofNat 4 ∧
    (sys_fork forkCx forkPal).child_cx.x 3 = 103 ∧
    (sys_fork forkCx forkPal).child_cx.x 10 = 0 := by
  have h := sys_fork_spec forkCx forkPal
  refine ⟨h.1, ?_, h.2.2.1⟩
  have h3 := h.2.2.2.1 3 (by decide)
  rw [h3]
  rfl

/-! ## Task control block and exec (task/task.rs) -/

/-- Embeds `TaskContext` (task/context.rs): return address, kernel stack
pointer and the 12 callee-saved registers. -/
structure TaskContext where
  ra : Nat
  sp : Nat
  s : Fin 12 → Nat

/-- Embeds `TaskStatus` (task/task.rs). -/
inductive TaskStatus where
  | UnInit
  | Ready
  | Running
  | Zombie
deriving DecidableEq, Repr

/-- Embeds `TaskControlBlock` with its `TaskControlBlockInner`
(task/task.rs): `pid` and `kernel_stack` are immutable after
construction, the rest sits behind the `UPSafeCell`.  The address space
is abstracted by the type parameter `MS`; the kernel stack is
represented by the PID it is keyed on (the Rust `KernelStack` stores
exactly that), its top being `kernel_stack_position`; parent and
children references are modelled by PIDs. -/
structure TaskControlBlock (MS : Type) where
  pid : Nat
  kernel_stack : Nat
  trap_cx_ppn : Nat
  base_size : Nat
  task_cx : TaskContext
  task_status : TaskStatus
  memory_set : MS
  parent : Option Nat
  children : List Nat
  exit_code : Int

/-- Embeds `TaskControlBlock::exec` (task/task.rs:124-149):
`from_elf(elf_data)` and the trap-context translation are abstracted as
the inputs `new_ms`, `new_trap_cx_ppn`, `user_sp`, `entry_point` (ELF
parsing is external to the core); `exec` overwrites `memory_set` and
`trap_cx_ppn` in place through `&self`, then rewrites the trap context
located at the new PPN with `app_init_context`, whose kernel stack
pointer is the unchanged kernel stack's top.  The result pairs the
updated TCB with the (PPN, contents) of the trap-context write. -/
def TaskControlBlock.exec {MS : Type} (t : TaskControlBlock MS)
    (new_ms : MS) (new_trap_cx_ppn user_sp entry_point kernel_satp
    sstatus trap_handler_entry : Nat) :
    TaskControlBlock MS × (Nat × TrapContext) :=
  ({ t with memory_set := new_ms, trap_cx_ppn := new_trap_cx_ppn },
   (new_trap_cx_ppn,
    TrapContext.app_init_context entry_point user_sp kernel_satp
      (kernel_stack_position t.kernel_stack).2 trap_handler_entry
      sstatus))

/-- C7: `exec` modifies only the address space, the trap-context PPN and
the trap-context contents: PID, kernel stack, parent reference, children
list, saved task context, base size, status and exit code are all
unchanged, the trap context is rewritten at the new PPN with the new
entry point and the same kernel stack's top — the TCB is updated in
place through `&self`, so the `Arc` the parent holds keeps referring to
it. -/
theorem exec_frame_effect {MS : Type} (t : TaskControlBlock MS)
    (new_ms : MS) (ppn usp entry ksatp sst th : Nat) :
    (t.exec new_ms ppn usp entry ksatp sst th).1.pid = t.pid ∧
    (t.exec new_ms ppn usp entry ksatp sst th).1.kernel_stack
      = t.kernel_stack ∧
    (t.exec new_ms ppn usp entry ksatp sst th).1.parent = t.parent ∧
    (t.exec new_ms ppn usp entry ksatp sst th).1.children = t.children ∧
    (t.exec new_ms ppn usp entry ksatp sst th).1.task_cx = t.task_cx ∧
    (t.exec new_ms ppn usp entry ksatp sst th).1.base_size
      = t.base_size ∧
    (t.exec new_ms ppn usp entry ksatp sst th).1.task_status
      = t.task_status ∧
    (t.exec new_ms ppn usp entry ksatp sst th).1.exit_code
      = t.exit_code ∧
    (t.exec new_ms ppn usp entry ksatp sst th).1.memory_set = new_ms ∧
    (t.exec new_ms ppn usp entry ksatp sst th).1.trap_cx_ppn = ppn ∧
    (t.exec new_ms ppn usp entry ksatp sst th).2.1 = ppn ∧
    (t.exec new_ms ppn usp entry ksatp sst th).2.2.sepc = entry ∧
    (t.exec new_ms ppn usp entry ksatp sst th).2.2.kernel_sp
      = (kernel_stack_position t.kernel_stack).2 :=
  ⟨rfl, rfl, rfl, rfl, rfl, rfl, rfl, rfl, rfl, rfl, rfl, rfl, rfl⟩

/-! ## waitpid (syscall/process.rs) -/

/-- A child TCB as `sys_waitpid` inspects it: its PID (`getpid()`), its
status (for `is_zombie()`) and its exit code. -/
structure ChildTCB where
  pid : Nat
  task_status : TaskStatus
  exit_code : Int
deriving DecidableEq, Repr

/-- Embeds the Rust `pid as usize` cast applied to an isize: the
two's-complement bit pattern read as unsigned. -/
def usizeOfInt (i : Int) : Nat := (i % (2 ^ 64 : Int)).toNat

/-- Embeds the waitpid match condition
`pid == -1 || pid as usize == p.getpid()`. -/
def pidMatches (pid : Int) (p : Nat) : Bool :=
  pid == -1 || usizeOfInt pid == p

/-- Embeds the zombie-search predicate of `sys_waitpid`:
`p.is_zombie() && (pid == -1 || pid as usize == p.getpid())`. -/
def zombieMatch (pid : Int) (p : ChildTCB) : Bool :=
  (p.task_status == TaskStatus.Zombie) && pidMatches pid p.pid

/-- Embeds `children.iter().enumerate().find(...)` in `sys_waitpid`:
the first (lowest-indexed) child satisfying `zombieMatch`, with its
index. -/
def findZombie (pid : Int) : List ChildTCB → Nat → Option (Nat × ChildTCB)
  | [], _ => none
  | p :: rest, i =>
    if zombieMatch pid p then some (i, p) else findZombie pid rest (i + 1)

/-- The observable outcome of `sys_waitpid`: `panic` models the failing
unwrap inside `translated_refmut` (pointer page walk failed); otherwise
the returned value, the children list left behind, and the performed
user-memory write (physical address, value), if any. -/
inductive WaitpidRes where
  | panic : WaitpidRes
  | ret (v : Int) (children : List ChildTCB) (written : Option (Nat × Int)) :
      WaitpidRes
deriving DecidableEq, Repr

/-- Embeds `sys_waitpid` (syscall/process.rs:85-123): return -1 when no
child matches `pid`; otherwise find the first matching zombie child,
`Vec::remove` it, read its exit code, obtain the target of the write
via `translated_refmut` against the caller's address space `ms` (panic
when either of its unwraps fails), perform the store
`*translated_refmut(..) = exit_code`, and return the child's PID; when
no matching child is a zombie, return -2.  The store is a kernel-mode
store at kernel virtual address `pa`: when `pa` is not mapped in the
kernel address space (`kernel_mapped`, which abstracts the kernel
space's identity mappings), it raises a supervisor StorePageFault whose
handler is `trap_from_kernel` (stvec is set to it on kernel entry,
trap/mod.rs), which panics.  The
`assert_eq!(Arc::strong_count(&child), 1)` concerns `Arc` bookkeeping
outside this embedding. -/
def sys_waitpid (kernel_mapped : Nat → Bool) (ms : PTState)
    (children : List ChildTCB) (pid : Int) (exit_code_ptr : Nat) :
    WaitpidRes :=
  if ¬ (children.any fun p => pidMatches pid p.pid) then
    .ret (-1) children none
  else
    match findZombie pid children 0 with
    | some (idx, child) =>
      match ms.translated_refmut exit_code_ptr with
      | none => .panic
      | some pa =>
        if kernel_mapped pa then
          .ret (Int.ofNat child.pid) (children.eraseIdx idx)
            (some (pa, child.exit_code))
        else .panic
    | none => .ret (-2) children none

/-- The zombie search returns the lowest-indexed matching zombie. -/
theorem findZombie_spec (pid : Int) :
    ∀ (l : List ChildTCB) (i idx : Nat) (c : ChildTCB),
      findZombie pid l i = some (idx, c) →
      i ≤ idx ∧ l[idx - i]? = some c ∧ zombieMatch pid c = true ∧
      ∀ j c', j < idx - i → l[j]? = some c' →
        zombieMatch pid c' = false := by
  intro l
  induction l with
  | nil =>
    intro i idx c h
    simp [findZombie] at h
  | cons p rest ih =>
    intro i idx c h
    unfold findZombie at h
    by_cases hz : zombieMatch pid p = true
    · rw [if_pos hz] at h
      injection h with h1
      injection h1 with hidx hc
      subst hidx
      subst hc
      refine ⟨Nat.le_refl i, ?_, hz, ?_⟩
      · simp
      · intro j c' hj
        exact fun _ => absurd hj (by omega)
    · rw [if_neg hz] at h
      obtain ⟨hle, hget, hzm, hmin⟩ := ih (i + 1) idx c h
      refine ⟨by omega, ?_, hzm, ?_⟩
      · have hd : idx - i = (idx - (i + 1)) + 1 := by omega
        rw [hd]
        simpa using hget
      · intro j c' hj hjget
        cases j with
        | zero =>
          simp at hjget
          subst hjget
          simpa using hz
        | succ j' =>
          have hj' : j' < idx - (i + 1) := by omega
          apply hmin j' c' hj'
          simpa using hjget

/-- A found zombie child is a member of the children list. -/
theorem findZombie_mem (pid : Int) (l : List ChildTCB) (idx : Nat)
    (c : ChildTCB) (h : findZombie pid l 0 = some (idx, c)) : c ∈ l := by
  obtain ⟨_, hget, _, _⟩ := findZombie_spec pid l 0 idx c h
  rw [Nat.sub_zero] at hget
  obtain ⟨hlt, rfl⟩ := List.getElem?_eq_some.mp hget
  exact List.getElem_mem hlt

/-- C4: `sys_waitpid` returns -1 with the children untouched and nothing
written when no child matches `pid`; when a matching zombie child exists
(and the user pointer resolves through `translated_refmut` to a
non-null target that is mapped on the kernel side, as every genuinely
mapped user page is) it removes the lowest-indexed matching zombie from
the children list, writes that child's exit code through the user
pointer, and returns that child's PID; when children match but none is
a zombie it returns -2 with the children untouched. -/
theorem sys_waitpid_spec (kernel_mapped : Nat → Bool) (ms : PTState)
    (children : List ChildTCB) (pid : Int) (ptr : Nat) :
    ((∀ p ∈ children, pidMatches pid p.pid = false) →
      sys_waitpid kernel_mapped ms children pid ptr
        = .ret (-1) children none) ∧
    (∀ idx child pa, findZombie pid children 0 = some (idx, child) →
      ms.translated_refmut ptr = some pa → kernel_mapped pa = true →
      sys_waitpid kernel_mapped ms children pid ptr =
        .ret (Int.ofNat child.pid) (children.eraseIdx idx)
          (some (pa, child.exit_code)) ∧
      zombieMatch pid child = true ∧
      children[idx]? = some child ∧
      (∀ j c, j < idx → children[j]? = some c →
        zombieMatch pid c = false)) ∧
    ((∃ p ∈ children, pidMatches pid p.pid = true) →
      findZombie pid children 0 = none →
      sys_waitpid kernel_mapped ms children pid ptr
        = .ret (-2) children none) := by
  refine ⟨?_, ?_, ?_⟩
  · intro hno
    unfold sys_waitpid
    have hany : (children.any fun p => pidMatches pid p.pid) = false := by
      rw [List.any_eq_false]
      exact fun p hp => by simp [hno p hp]
    rw [if_pos (by simp [hany])]
  · intro idx child pa hfind htr hkmp
    obtain ⟨_, hget, hzm, hmin⟩ := findZombie_spec pid children 0 idx
      child hfind
    have hmem : child ∈ children := findZombie_mem pid children idx
      child hfind
    have hany : (children.any fun p => pidMatches pid p.pid) = true := by
      rw [List.any_eq_true]
      refine ⟨child, hmem, ?_⟩
      have hthis := hzm
      unfold zombieMatch at hthis
      simp at hthis
      exact hthis.2
    refine ⟨?_, hzm, by simpa using hget, by simpa using hmin⟩
    unfold sys_waitpid
    rw [if_neg (by simp [hany]), hfind]
    show (match ms.translated_refmut ptr with
      | none => WaitpidRes.panic
      | some pa =>
        if kernel_mapped pa then
          WaitpidRes.ret (Int.ofNat child.pid) (children.eraseIdx idx)
            (some (pa, child.exit_code))
        else WaitpidRes.panic) = _
    rw [htr]
    simp [hkmp]
  · intro hex hnone
    unfold sys_waitpid
    have hany : (children.any fun p => pidMatches pid p.pid) = true := by
      rw [List.any_eq_true]
      obtain ⟨p, hp, hm⟩ := hex
      exact ⟨p, hp, hm⟩
    rw [if_neg (by simp [hany]), hnone]

/-- Address space used by the C4 witness: VA 0 is genuinely mapped (a
valid user leaf PTE pointing at frame 5). -/
def c4mem : Mem := fun f i =>
  if f = 0 ∧ i = 0 then PageTableEntry.new 1 PTEFlags.V
  else if f = 1 ∧ i = 0 then PageTableEntry.new 2 PTEFlags.V
  else if f = 2 ∧ i = 0 then
    PageTableEntry.new 5
      (PTEFlags.V ||| PTEFlags.R ||| PTEFlags.W ||| PTEFlags.U)
  else PageTableEntry.empty

/-- Concrete caller address space for the C4 witness. -/
def c4state : PTState :=
  { mem := c4mem, fa := ⟨6, 100, []⟩,
    pt := { root_ppn := 0, frames := [0, 1, 2] } }

/-- Kernel-mapping predicate for the C4 witness: the kernel identity
mappings lie above the lowest page (frame 5 of the witness space is
at kernel address 20480, mapped). -/
def c4kmap : Nat → Bool := fun a => decide (PAGE_SIZE ≤ a)

/-- C4 witness: a concrete waitpid(-1) reaps the zombie child (pid 2,
exit code 7) from behind a Ready sibling, removing it and writing 7
through the mapped pointer (physical/kernel address 20480). -/
theorem sys_waitpid_spec_witness :
    sys_waitpid c4kmap c4state
      [⟨1, TaskStatus.Ready, 0⟩, ⟨2, TaskStatus.Zombie, 7⟩] (-1) 0
      = WaitpidRes.ret 2 [⟨1, TaskStatus.Ready, 0⟩] (some (20480, 7)) := by
  have h := (sys_waitpid_spec c4kmap c4state
    [⟨1, TaskStatus.Ready, 0⟩, ⟨2, TaskStatus.Zombie, 7⟩] (-1) 0).2.1
    1 ⟨2, TaskStatus.Zombie, 7⟩ 20480 (by decide) (by decide) (by decide)
  exact h.1

/-! ## C10: unmapped pointer arguments and the translated_refmut panic -/

/-- Memory for the C10 counterexample: the directory path for VA 0
exists but the leaf PTE is zero (V = 0) — the state an `unmap` leaves
behind, i.e. the page is not mapped. -/
def c10mem : Mem := fun f i =>
  if f = 0 ∧ i = 0 then PageTableEntry.new 1 PTEFlags.V
  else if f = 1 ∧ i = 0 then PageTableEntry.new 2 PTEFlags.V
  else PageTableEntry.empty

/-- Concrete caller address space for the C10 counterexample. -/
def c10state : PTState :=
  { mem := c10mem, fa := ⟨3, 100, []⟩,
    pt := { root_ppn := 0, frames := [0, 1, 2] } }

/-- The zero PTE has PPN 0. -/
theorem empty_ppn : PageTableEntry.empty.ppn = 0 := by decide

/-- Kernel-mapping predicate used by the C10 counterexample: the kernel
identity mappings all lie at or above the kernel image, so nothing in
the lowest page of kernel memory is mapped. -/
def c10kmap : Nat → Bool := fun a => decide (PAGE_SIZE ≤ a)

/-- C10 counterexample: a matching Zombie child exists and the exit-code
pointer (value 4, an aligned i32 pointer) lies on a page that is not
mapped (its leaf PTE is the zero entry), and the kernel does panic —
but not through the claimed failing unwrap: both unwraps of
`translated_refmut` succeed (the stale leaf has PPN 0, so `get_mut`
receives the non-null address 4), and the panic comes from the
subsequent kernel-mode store into the never-mapped lowest kernel page,
which faults into the panicking `trap_from_kernel`.  This refutes the
claim's assertion that the unwrap in the cross-address-space write
fails for any unmapped-page pointer. -/
theorem waitpid_unmapped_page_unwrap_succeeds :
    c10state.translate 0 = some PageTableEntry.empty ∧
    PageTableEntry.empty.is_valid = false ∧
    c10state.translated_refmut 4 = some 4 ∧
    sys_waitpid c10kmap c10state [⟨2, TaskStatus.Zombie, 7⟩] 2 4
      = WaitpidRes.panic := by decide

/-- C10 (amended): when `sys_waitpid` has found a matching Zombie child
and the exit-code pointer lies on an unmapped page — the directory walk
fails, or it reaches a stale all-zero leaf PTE (the only invalid leaf
the code produces) — the kernel panics and never returns an error
code.  The claimed failing unwrap is the mechanism only when the walk
fails (the `translate_va` unwrap) or the pointer is page-aligned (stale
physical address 0, the null-pointer unwrap inside `PhysAddr::get_mut`);
for an unaligned pointer on a stale-leaf page both unwraps succeed and
the panic comes from the kernel-mode store into the never-mapped lowest
kernel page, which faults into the panicking `trap_from_kernel`.  The
same holds for every syscall pointer argument routed through
`translated_refmut`. -/
theorem waitpid_unmapped_pointer_panics (kernel_mapped : Nat → Bool)
    (ms : PTState) (children : List ChildTCB) (pid : Int) (ptr : Nat)
    (idx : Nat) (child : ChildTCB)
    (hkm : ∀ a, a < PAGE_SIZE → kernel_mapped a = false)
    (hfind : findZombie pid children 0 = some (idx, child))
    (hunmapped : ms.find_pte (ptr / PAGE_SIZE) = none ∨
      ms.find_pte (ptr / PAGE_SIZE) = some PageTableEntry.empty) :
    sys_waitpid kernel_mapped ms children pid ptr = WaitpidRes.panic ∧
    (ms.translated_refmut ptr = none ↔
      (ms.find_pte (ptr / PAGE_SIZE) = none ∨ ptr % PAGE_SIZE = 0)) := by
  obtain ⟨_, hget, hzm, _⟩ := findZombie_spec pid children 0 idx
    child hfind
  have hmem : child ∈ children := findZombie_mem pid children idx
    child hfind
  have hany : (children.any fun p => pidMatches pid p.pid) = true := by
    rw [List.any_eq_true]
    refine ⟨child, hmem, ?_⟩
    have hthis := hzm
    unfold zombieMatch at hthis
    simp at hthis
    exact hthis.2
  cases hunmapped with
  | inl hfail =>
    have htr : ms.translated_refmut ptr = none := by
      unfold PTState.translated_refmut PTState.translate_va
      rw [hfail]
      rfl
    constructor
    · unfold sys_waitpid
      rw [if_neg (by simp [hany]), hfind]
      show (match ms.translated_refmut ptr with
        | none => WaitpidRes.panic
        | some pa =>
          if kernel_mapped pa then
            WaitpidRes.ret (Int.ofNat child.pid) (children.eraseIdx idx)
              (some (pa, child.exit_code))
          else WaitpidRes.panic) = WaitpidRes.panic
      rw [htr]
    · simp [htr, hfail]
  | inr hstale =>
    have htrv : ms.translate_va ptr = some (ptr % PAGE_SIZE) := by
      unfold PTState.translate_va
      rw [hstale]
      simp [empty_ppn]
    by_cases hal : ptr % PAGE_SIZE = 0
    · have htr : ms.translated_refmut ptr = none := by
        unfold PTState.translated_refmut
        rw [htrv, hal]
        rfl
      constructor
      · unfold sys_waitpid
        rw [if_neg (by simp [hany]), hfind]
        show (match ms.translated_refmut ptr with
          | none => WaitpidRes.panic
          | some pa =>
            if kernel_mapped pa then
              WaitpidRes.ret (Int.ofNat child.pid)
                (children.eraseIdx idx) (some (pa, child.exit_code))
            else WaitpidRes.panic) = WaitpidRes.panic
        rw [htr]
      · simp [htr, hal]
    · have hpa : ms.translated_refmut ptr = some (ptr % PAGE_SIZE) := by
        unfold PTState.translated_refmut
        rw [htrv]
        simp [PhysAddr.get_mut, hal]
      have hkmf : kernel_mapped (ptr % PAGE_SIZE) = false :=
        hkm _ (Nat.mod_lt _ (by norm_num [PAGE_SIZE]))
      constructor
      · unfold sys_waitpid
        rw [if_neg (by simp [hany]), hfind]
        show (match ms.translated_refmut ptr with
          | none => WaitpidRes.panic
          | some pa =>
            if kernel_mapped pa then
              WaitpidRes.ret (Int.ofNat child.pid)
                (children.eraseIdx idx) (some (pa, child.exit_code))
            else WaitpidRes.panic) = WaitpidRes.panic
        rw [hpa]
        simp [hkmf]
      · simp [hpa, hstale, hal]

/-- All-zero memory (no directory path at all) for the C10 witness. -/
def c10wmem : Mem := fun _ _ => PageTableEntry.empty

/-- Concrete caller address space for the C10 witness: the walk for the
pointer fails already at the root directory. -/
def c10wstate : PTState :=
  { mem := c10wmem, fa := ⟨1, 100, []⟩,
    pt := { root_ppn := 0, frames := [0] } }

/-- Kernel-mapping predicate for the C10 witness. -/
def c10wkmap : Nat → Bool := fun a => decide (PAGE_SIZE ≤ a)

/-- C10 amended-theorem witness: with a matching zombie child and a
pointer whose directory path is missing, the syscall panics, and the
panic is the failing `translate_va` unwrap. -/
theorem waitpid_unmapped_pointer_panics_witness :
    sys_waitpid c10wkmap c10wstate [⟨2, TaskStatus.Zombie, 7⟩] (-1) 0
      = WaitpidRes.panic ∧
    c10wstate.translated_refmut 0 = none := by
  have h := waitpid_unmapped_pointer_panics c10wkmap c10wstate
    [⟨2, TaskStatus.Zombie, 7⟩] (-1) 0 0 ⟨2, TaskStatus.Zombie, 7⟩
    (fun a ha => decide_eq_false (by omega)) (by decide)
    (Or.inl (by decide))
  exact ⟨h.1, h.2.mpr (Or.inl (by decide))⟩

/-! ## Exit (task/mod.rs) -/

/-- Embeds the ownership content of `MapArea` (mm/memory_set.rs) that
the exit path manipulates: whether the area is Framed and the PPNs of
the data frames it owns (`data_frames`; Identical areas own none). -/
structure MapAreaM where
  framed : Bool
  data_frames : List Nat
deriving DecidableEq, Repr

/-- Embeds the `areas` list of `MemorySet`. -/
structure MemorySetM where
  areas : List MapAreaM
deriving DecidableEq, Repr

/-- Embeds `MemorySet::recycle_data_pages`: `self.areas.clear()`;
dropping the areas drops their `FrameTracker`s, deallocating every owned
data frame. -/
def MemorySetM.recycle_data_pages (_ms : MemorySetM) : MemorySetM :=
  { areas := [] }

/-- The data-frame PPNs released when the areas are cleared. -/
def MemorySetM.ownedFrames (ms : MemorySetM) : List Nat :=
  (ms.areas.map MapAreaM.data_frames).flatten

/-- The task-control-block state the exit path reads and writes, keyed
by PID (children and parent references are modelled by PIDs; in the
kernel they are `Arc`/`Weak` references). -/
structure TCB8 where
  pid : Nat
  kernel_stack : Nat
  task_status : TaskStatus
  exit_code : Int
  parent : Option Nat
  children : List Nat
  memory_set : MemorySetM
deriving DecidableEq, Repr

/-- Kernel state for the exit path: the live TCBs, the processor's
current slot, and the init process. -/
structure KState where
  tasks : Nat → Option TCB8
  current : Option Nat
  init_pid : Nat

/-- Embeds `exit_current_and_run_next` (task/mod.rs:46-79):
`take_current_task().unwrap()` (none when there is no current task);
mark the task Zombie and record the exit code; under the init process's
borrow, set every child's parent to a weak reference to init and push
the child onto init's children; clear the task's own children list;
release the user-data frames via `recycle_data_pages`; the current slot
stays empty (the task context is discarded).  Borrowing
`INITPROC.inner_exclusive_access()` while the current task's borrow is
held panics (none) when the current task is init itself, and
`child.inner_exclusive_access()` panics when a child is the current
task or init.  Returns the new state and the released data-frame
PPNs. -/
def exit_current_and_run_next (s : KState) (exit_code : Int) :
    Option (KState × List Nat) :=
  match s.current with
  | none => none
  | some cur =>
    if cur = s.init_pid then none
    else
      match s.tasks cur, s.tasks s.init_pid with
      | some t, some ini =>
        if cur ∈ t.children ∨ s.init_pid ∈ t.children then none
        else
          some
            ({ tasks := fun q =>
                 if q = cur then
                   some { t with task_status := TaskStatus.Zombie,
                                 exit_code := exit_code,
                                 children := [],
                                 memory_set :=
                                   t.memory_set.recycle_data_pages }
                 else if q = s.init_pid then
                   some { ini with
                     children := ini.children ++ t.children }
                 else if q ∈ t.children then
                   (s.tasks q).map fun c =>
                     { c with parent := some s.init_pid }
                 else s.tasks q,
               current := none, init_pid := s.init_pid },
             t.memory_set.ownedFrames)
      | _, _ => none

/-- C8: after the current task `t` (not the init process; its children
well-formed, i.e. fresh forked tasks, never itself or init) exits with
code `k`: `t` is a Zombie with `exit_code = k`, its children list is
empty, its address space owns no regions any more (all its data frames
are the released list), every former child's parent is now the init
process and every former child appears in init's children list, while
`t`'s PID, kernel stack and TCB itself persist in the task table. -/
theorem exit_spec (s : KState) (k : Int) (cur : Nat) (t ini : TCB8)
    (hcur : s.current = some cur)
    (ht : s.tasks cur = some t)
    (hini : s.tasks s.init_pid = some ini)
    (hni : cur ≠ s.init_pid)
    (hc1 : cur ∉ t.children) (hc2 : s.init_pid ∉ t.children) :
    ∃ s', exit_current_and_run_next s k
        = some (s', t.memory_set.ownedFrames) ∧
      s'.tasks cur = some { t with task_status := TaskStatus.Zombie, exit_code := k, children := [], memory_set := MemorySetM.mk [] } ∧
      s'.tasks s.init_pid
        = some { ini with children := ini.children ++ t.children } ∧
      (∀ c ∈ t.children, ∀ c0, s.tasks c = some c0 →
        s'.tasks c = some { c0 with parent := some s.init_pid }) ∧
      (∀ c ∈ t.children, c ∈ ini.children ++ t.children) := by
  have hcc : ¬ (cur ∈ t.children ∨ s.init_pid ∈ t.children) := by
    push_neg
    exact ⟨hc1, hc2⟩
  refine ⟨{ tasks := fun q =>
              if q = cur then
                some { t with task_status := TaskStatus.Zombie, exit_code := k, children := [], memory_set := t.memory_set.recycle_data_pages }
              else if q = s.init_pid then
                some { ini with children := ini.children ++ t.children }
              else if q ∈ t.children then
                (s.tasks q).map fun c => { c with parent := some s.init_pid }
              else s.tasks q,
            current := none, init_pid := s.init_pid }, ?_, ?_, ?_, ?_, ?_⟩
  · simp only [exit_current_and_run_next, hcur, ht, hini, if_neg hni,
      if_neg hcc]
  · simp [MemorySetM.recycle_data_pages]
  · have h1 : ¬ s.init_pid = cur := fun hh => hni hh.symm
    simp [h1]
  · intro c hc c0 hc0
    have h1 : ¬ c = cur := fun hh => hc1 (hh ▸ hc)
    have h2 : ¬ c = s.init_pid := fun hh => hc2 (hh ▸ hc)
    simp [h1, h2, hc, hc0]
  · intro c hc
    simp [hc]

/-- Init-process TCB for the C8 witness (pid 0, no parent). -/
def exitInit : TCB8 := ⟨0, 0, TaskStatus.Ready, 0, none, [], ⟨[]⟩⟩

/-- Exiting task for the C8 witness: pid 1, one child (pid 2), one
Framed region owning frames 30 and 31. -/
def exitT : TCB8 :=
  ⟨1, 1, TaskStatus.Running, 0, some 0, [2], ⟨[⟨true, [30, 31]⟩]⟩⟩

/-- Child task for the C8 witness. -/
def exitChild : TCB8 := ⟨2, 2, TaskStatus.Ready, 0, some 1, [], ⟨[]⟩⟩

/-- Task table for the C8 witness. -/
def exitTasks : Nat → Option TCB8 := fun q =>
  if q = 0 then some exitInit
  else if q = 1 then some exitT
  else if q = 2 then some exitChild
  else none

/-- Kernel state for the C8 witness: task 1 is current, init is 0. -/
def exitState : KState := ⟨exitTasks, some 1, 0⟩

/-- C8 witness: the exit specification applied at a concrete state —
task 1 exits with code 7, its frames 30 and 31 are released, its child
2 is reparented to init. -/
theorem exit_spec_witness :
    ∃ s', exit_current_and_run_next exitState 7
        = some (s', exitT.memory_set.ownedFrames) ∧
      s'.tasks 1 = some { exitT with task_status := TaskStatus.Zombie, exit_code := 7, children := [], memory_set := MemorySetM.mk [] } ∧
      s'.tasks exitState.init_pid
        = some { exitInit with children := exitInit.children ++ exitT.children } ∧
      (∀ c ∈ exitT.children, ∀ c0, exitState.tasks c = some c0 →
        s'.tasks c = some { c0 with parent := some exitState.init_pid }) ∧
      (∀ c ∈ exitT.children, c ∈ exitInit.children ++ exitT.children) :=
  exit_spec exitState 7 1 exitT exitInit rfl rfl rfl (by decide)
    (by decide) (by decide)

end OS5
